import Mathlib

/-!
Shallow embedding of the realtime fan-out layer of the localoop backend:
the `ConnectionManager` class in `src/services/websocket_manager.py` and the
two websocket route handlers in `routers/chat/chat_routes.py`.

Modelling conventions:
* a websocket connection is an opaque identity, modelled as a `Nat`;
* a Python `dict` is an association list (`dget`/`dset`/`ddel` mirror
  lookup, assignment and `del`); a Python `set` of strings is a
  duplicate-free `List String` (`sadd` mirrors `set.add`, `sdiscard`
  mirrors `set.discard`); the Python `List[WebSocket]` with
  `append`/`remove` is a `List Nat` (`lremove` removes the first
  occurrence, as `list.remove` does);
* a send over a websocket is recorded in an output log of
  `(connection, payload)` pairs; whether a given send raises is
  determined by a `fails : Nat → Bool` oracle passed to each operation
  (a connection whose transport is dead fails every send during that
  operation).  `broadcast_*` catches send exceptions exactly where the
  Python code has its `try/except`; for the direct welcome sends in the
  `connect_*` operations (which the Python code does not guard) a failing
  send produces no log entry — theorems about those operations assume the
  joining connection is live, matching the unguarded happy path.
* `broadcast_to_conversation` and `disconnect_from_conversation` are
  mutually recursive in the source (broadcast cleanup disconnects, and a
  disconnect broadcasts `user_left`); the embedding adds a `fuel`
  parameter, decremented when a broadcast starts its cleanup phase, to
  make the recursion structural.  With positive fuel the behaviour is
  exactly the source's; fuel `0` merely truncates the cleanup phase.
-/

/-- JSON scalar values appearing in the payloads the manager builds. -/
inductive JVal where
  | null : JVal
  | str : String → JVal
  | num : Nat → JVal
  | bool : Bool → JVal
deriving DecidableEq, Repr

/-- A JSON object: field-name/value pairs, as built by the Python dict literals. -/
def JObj : Type := List (String × JVal)

instance : DecidableEq JObj := by
  unfold JObj
  infer_instance

/-- An outbound frame: `send_text` sends a raw string, `send_json` an object. -/
inductive JMsg where
  | text : String → JMsg
  | obj : JObj → JMsg
deriving DecidableEq

/-- Dictionary lookup, `m[k]` / `k in m` guard combined: first binding wins. -/
def dget {κ α : Type} [DecidableEq κ] (m : List (κ × α)) (k : κ) : Option α :=
  match m with
  | [] => none
  | (k₀, v) :: t => if k₀ = k then some v else dget t k

/-- Dictionary assignment `m[k] = v`: overwrite the binding or append one. -/
def dset {κ α : Type} [DecidableEq κ] (m : List (κ × α)) (k : κ) (v : α) : List (κ × α) :=
  match m with
  | [] => [(k, v)]
  | (k₀, v₀) :: t => if k₀ = k then (k₀, v) :: t else (k₀, v₀) :: dset t k v

/-- Dictionary deletion `del m[k]` (also used for `dict.pop`). -/
def ddel {κ α : Type} [DecidableEq κ] (m : List (κ × α)) (k : κ) : List (κ × α) :=
  match m with
  | [] => []
  | (k₀, v₀) :: t => if k₀ = k then ddel t k else (k₀, v₀) :: ddel t k

/-- Python `set.add`: insert unless already present. -/
def sadd (s : List String) (x : String) : List String :=
  if x ∈ s then s else x :: s

/-- Python `set.discard`: remove the element if present, no error otherwise. -/
def sdiscard (s : List String) (x : String) : List String :=
  match s with
  | [] => []
  | y :: t => if y = x then sdiscard t x else y :: sdiscard t x

/-- Python `list.remove`: drop the first occurrence (callers guard membership). -/
def lremove (l : List Nat) (x : Nat) : List Nat :=
  match l with
  | [] => []
  | y :: t => if y = x then t else y :: lremove t x

/-- The mutable state of `ConnectionManager` (`websocket_manager.py`, `__init__`). -/
structure MState where
  location_connections : List (String × List Nat)
  conversation_connections : List (String × List Nat)
  websocket_users : List (Nat × String)
  conversation_users : List (String × List String)
deriving DecidableEq

/-- The state of the module-level `manager = ConnectionManager()` at startup. -/
def initState : MState := ⟨[], [], [], []⟩

/-- Welcome payload sent by `connect_to_location`. -/
def connectedLocMsg (loc : String) : JObj :=
  [("type", JVal.str "connected"), ("location_id", JVal.str loc),
   ("message", JVal.str "Connected to location updates")]

/-- Welcome payload sent by `connect_to_conversation` (with active-user count). -/
def connectedConvMsg (c : String) (n : Nat) : JObj :=
  [("type", JVal.str "connected"), ("conversation_id", JVal.str c),
   ("active_users", JVal.num n), ("message", JVal.str "Connected to conversation")]

/-- Encode Python `user_id` (possibly `None`) as a JSON value. -/
def jOptStr : Option String → JVal
  | none => JVal.null
  | some s => JVal.str s

/-- The `user_joined` payload broadcast by `connect_to_conversation`. -/
def userJoinedMsg (uid : Option String) (n : Nat) : JObj :=
  [("type", JVal.str "user_joined"), ("user_id", jOptStr uid),
   ("active_users", JVal.num n)]

/-- The `user_left` payload broadcast by `disconnect_from_conversation`. -/
def userLeftMsg (u : String) (n : Nat) : JObj :=
  [("type", JVal.str "user_left"), ("user_id", JVal.str u),
   ("active_users", JVal.num n)]

/-- The send loop shared by both broadcast methods: walk the snapshot,
skip the excluded connection, log successful sends, and collect the
connections whose send raised (the `disconnected` list). -/
def sendLoop (conns : List Nat) (excl : Option Nat) (fails : Nat → Bool) (msg : JObj) :
    List (Nat × JMsg) × List Nat :=
  match conns with
  | [] => ([], [])
  | w :: t =>
    let r := sendLoop t excl fails msg
    if some w = excl then r
    else if fails w then (r.1, w :: r.2)
    else ((w, JMsg.obj msg) :: r.1, r.2)

/-- `ConnectionManager.connect_to_location`. -/
def connect_to_location (s : MState) (ws : Nat) (loc : String) (uid : Option String)
    (fails : Nat → Bool) : MState × List (Nat × JMsg) :=
  let s :=
    if (dget s.location_connections loc).isSome then s
    else { s with location_connections := dset s.location_connections loc [] }
  let conns := (dget s.location_connections loc).getD [] ++ [ws]
  let s := { s with location_connections := dset s.location_connections loc conns }
  let s :=
    match uid with
    | some u => { s with websocket_users := dset s.websocket_users ws u }
    | none => s
  (s, if fails ws then [] else [(ws, JMsg.obj (connectedLocMsg loc))])

/-- `ConnectionManager.disconnect_from_location`. -/
def disconnect_from_location (s : MState) (ws : Nat) (loc : String) : MState :=
  let lc :=
    match dget s.location_connections loc with
    | none => s.location_connections
    | some conns =>
      if ws ∈ conns then
        let conns' := lremove conns ws
        if conns' = [] then ddel s.location_connections loc
        else dset s.location_connections loc conns'
      else s.location_connections
  let wu :=
    if (dget s.websocket_users ws).isSome then ddel s.websocket_users ws
    else s.websocket_users
  { s with location_connections := lc, websocket_users := wu }

/-- `ConnectionManager.broadcast_to_location`. -/
def broadcast_to_location (s : MState) (loc : String) (msg : JObj) (excl : Option Nat)
    (fails : Nat → Bool) : MState × List (Nat × JMsg) :=
  match dget s.location_connections loc with
  | none => (s, [])
  | some conns =>
    let p := sendLoop conns excl fails msg
    (p.2.foldl (fun st w => disconnect_from_location st w loc) s, p.1)

/-- `ConnectionManager.get_active_users_in_location`: the length of the
location's connection list. -/
def get_active_users_in_location (s : MState) (loc : String) : Nat :=
  ((dget s.location_connections loc).getD []).length

/-- `ConnectionManager.get_active_users_in_conversation`: size of the
conversation's present-user set. -/
def get_active_users_in_conversation (s : MState) (c : String) : Nat :=
  ((dget s.conversation_users c).getD []).length

/-- Per-conversation subscriber count, as summed by `get_connection_stats`
over `conversation_connections` (0 for an unknown scope). -/
def conv_subscriber_count (s : MState) (c : String) : Nat :=
  ((dget s.conversation_connections c).getD []).length

/-- The registry mutations of `ConnectionManager.disconnect_from_conversation`
(everything before the final `user_left` broadcast).  `uid` is the value the
method reads from `websocket_users` on entry. -/
def disc_conv_state (s : MState) (ws : Nat) (c : String) (uid : Option String) : MState :=
  let pair :=
    match dget s.conversation_connections c with
    | none => (s.conversation_connections, s.conversation_users)
    | some conns =>
      if ws ∈ conns then
        let conns' := lremove conns ws
        if conns' = [] then
          (ddel s.conversation_connections c,
           if (dget s.conversation_users c).isSome then ddel s.conversation_users c
           else s.conversation_users)
        else (dset s.conversation_connections c conns', s.conversation_users)
      else (s.conversation_connections, s.conversation_users)
  let cu :=
    match uid, dget pair.2 c with
    | some u, some uset => dset pair.2 c (sdiscard uset u)
    | _, _ => pair.2
  let wu :=
    if (dget s.websocket_users ws).isSome then ddel s.websocket_users ws
    else s.websocket_users
  { s with conversation_connections := pair.1, conversation_users := cu,
           websocket_users := wu }

mutual

/-- `ConnectionManager.broadcast_to_conversation`.  With fuel `f + 1` the
cleanup phase disconnects every connection whose send failed, exactly as the
source's final loop does; fuel `0` truncates the cleanup. -/
def broadcast_to_conversation (fuel : Nat) (s : MState) (c : String) (msg : JObj)
    (excl : Option Nat) (fails : Nat → Bool) : MState × List (Nat × JMsg) :=
  match dget s.conversation_connections c with
  | none => (s, [])
  | some conns =>
    let p := sendLoop conns excl fails msg
    match fuel with
    | 0 => (s, p.1)
    | f + 1 => cleanupConv f s c fails p.2 p.1
termination_by (fuel, 0, 0)

/-- The cleanup loop at the end of `broadcast_to_conversation`: disconnect each
connection whose send failed, accumulating any `user_left` sends those
disconnects make. -/
def cleanupConv (fuel : Nat) (s : MState) (c : String) (fails : Nat → Bool)
    (dis : List Nat) (acc : List (Nat × JMsg)) : MState × List (Nat × JMsg) :=
  match dis with
  | [] => (s, acc)
  | w :: t =>
    let r := disconnect_from_conversation fuel s w c fails
    cleanupConv fuel r.1 c fails t (acc ++ r.2)
termination_by (fuel, 2, dis.length)

/-- `ConnectionManager.disconnect_from_conversation`. -/
def disconnect_from_conversation (fuel : Nat) (s : MState) (ws : Nat) (c : String)
    (fails : Nat → Bool) : MState × List (Nat × JMsg) :=
  let uid := dget s.websocket_users ws
  let s₁ := disc_conv_state s ws c uid
  match uid with
  | some u =>
    broadcast_to_conversation fuel s₁ c
      (userLeftMsg u ((dget s₁.conversation_users c).getD []).length) none fails
  | none => (s₁, [])
termination_by (fuel, 1, 0)

end

/-- The registry mutations of `ConnectionManager.connect_to_conversation`
(everything before the welcome send and the `user_joined` broadcast).  The
Python method adds the user to `conversation_users[conversation_id]` by
direct indexing; the embedding writes the set back with `dset` (the key is
always present at that point, having been created together with the
connection-list entry). -/
def conn_conv_state (s : MState) (ws : Nat) (c : String) (uid : Option String) : MState :=
  let s :=
    if (dget s.conversation_connections c).isSome then s
    else { s with conversation_connections := dset s.conversation_connections c [],
                  conversation_users := dset s.conversation_users c [] }
  let conns := (dget s.conversation_connections c).getD [] ++ [ws]
  let s := { s with conversation_connections := dset s.conversation_connections c conns }
  match uid with
  | some u =>
    { s with websocket_users := dset s.websocket_users ws u,
             conversation_users :=
               dset s.conversation_users c (sadd ((dget s.conversation_users c).getD []) u) }
  | none => s

/-- `ConnectionManager.connect_to_conversation`. -/
def connect_to_conversation (fuel : Nat) (s : MState) (ws : Nat) (c : String)
    (uid : Option String) (fails : Nat → Bool) : MState × List (Nat × JMsg) :=
  let s₁ := conn_conv_state s ws c uid
  let n := ((dget s₁.conversation_users c).getD []).length
  let selfLog :=
    if fails ws then ([] : List (Nat × JMsg))
    else [(ws, JMsg.obj (connectedConvMsg c n))]
  let r := broadcast_to_conversation fuel s₁ c (userJoinedMsg uid n) (some ws) fails
  (r.1, selfLog ++ r.2)

/-- Relay payload built by the `typing` branch of `conversation_websocket`
(`chat_routes.py`): missing inbound fields become `null`, and a missing
`is_typing` defaults to `false`, exactly as `dict.get` does. -/
def typingRelay (data : JObj) : JObj :=
  [("type", JVal.str "typing"),
   ("user_id", (dget data "user_id").getD JVal.null),
   ("user_name", (dget data "user_name").getD JVal.null),
   ("is_typing", (dget data "is_typing").getD (JVal.bool false))]

/-- One iteration of the receive loop of `location_websocket`
(`chat_routes.py`): only the literal text `"ping"` is answered (with the
literal text `"pong"`); everything else is dropped on the floor. -/
def handle_location_message (s : MState) (ws : Nat) (data : String) :
    MState × List (Nat × JMsg) :=
  if data = "ping" then (s, [(ws, JMsg.text "pong")]) else (s, [])

/-- One iteration of the receive loop of `conversation_websocket`
(`chat_routes.py`) on a decoded JSON object: a `typing` message is relayed to
the other subscribers, a `ping` gets a `pong` back to the sender, and any
other object is ignored. -/
def handle_conversation_message (fuel : Nat) (s : MState) (ws : Nat) (c : String)
    (data : JObj) (fails : Nat → Bool) : MState × List (Nat × JMsg) :=
  if dget data "type" = some (JVal.str "typing") then
    broadcast_to_conversation fuel s c (typingRelay data) (some ws) fails
  else if dget data "type" = some (JVal.str "ping") then
    (s, [(ws, JMsg.obj [("type", JVal.str "pong")])])
  else (s, [])

/-- A failure oracle under which every send succeeds. -/
def noFail : Nat → Bool := fun _ => false

/-- The conversation-side operations only ever remove registry entries: a
connection absent from the user index stays absent, and a connection absent
from a conversation's subscriber list stays absent. -/
def Shrinks (s s' : MState) : Prop :=
  (∀ w, dget s.websocket_users w = none → dget s'.websocket_users w = none) ∧
  (∀ c w, w ∉ ((dget s.conversation_connections c).getD []) →
      w ∉ ((dget s'.conversation_connections c).getD []))

/-- The conversation-side operations never increase a connection's
multiplicity in any conversation's subscriber list. -/
def CountsLe (s s' : MState) : Prop :=
  ∀ c w, ((dget s'.conversation_connections c).getD []).count w ≤
    ((dget s.conversation_connections c).getD []).count w

/-- The conversation-side operations on scope `c` leave the location map and
every other conversation key untouched. -/
def SameOutside (c : String) (s s' : MState) : Prop :=
  s'.location_connections = s.location_connections ∧
  (∀ c', c ≠ c' → dget s'.conversation_connections c' = dget s.conversation_connections c')

/-- Every connection list stored in a scope map is non-empty (the scope key
exists iff it has at least one subscriber). -/
def scopesGood (m : List (String × List Nat)) : Prop :=
  ∀ k l, dget m k = some l → l ≠ []

/-- The empty-scope invariant for both scope maps of the registry. -/
def GoodState (s : MState) : Prop :=
  scopesGood s.location_connections ∧ scopesGood s.conversation_connections

/-- Registry states reachable from the initial state by any sequence of the
manager's subscribe, unsubscribe and broadcast operations. -/
inductive Reachable : MState → Prop where
  | init : Reachable initState
  | conn_loc (s : MState) (ws : Nat) (loc : String) (uid : Option String)
      (fails : Nat → Bool) : Reachable s →
      Reachable (connect_to_location s ws loc uid fails).1
  | disc_loc (s : MState) (ws : Nat) (loc : String) : Reachable s →
      Reachable (disconnect_from_location s ws loc)
  | bcast_loc (s : MState) (loc : String) (msg : JObj) (excl : Option Nat)
      (fails : Nat → Bool) : Reachable s →
      Reachable (broadcast_to_location s loc msg excl fails).1
  | conn_conv (fuel : Nat) (s : MState) (ws : Nat) (c : String) (uid : Option String)
      (fails : Nat → Bool) : Reachable s →
      Reachable (connect_to_conversation fuel s ws c uid fails).1
  | disc_conv (fuel : Nat) (s : MState) (ws : Nat) (c : String)
      (fails : Nat → Bool) : Reachable s →
      Reachable (disconnect_from_conversation fuel s ws c fails).1
  | bcast_conv (fuel : Nat) (s : MState) (c : String) (msg : JObj) (excl : Option Nat)
      (fails : Nat → Bool) : Reachable s →
      Reachable (broadcast_to_conversation fuel s c msg excl fails).1

/-- The registry state of the C1 scenario: websockets 1 and 2 both subscribe
to conversation `"c"` with the same user identifier `"u1"`, then websocket 1
disconnects (websocket 2 remains subscribed). -/
def c1_after_disconnect : MState :=
  (disconnect_from_conversation 10
    ((connect_to_conversation 10
      ((connect_to_conversation 10 initState 1 "c" (some "u1") noFail).1)
      2 "c" (some "u1") noFail).1) 1 "c" noFail).1

/-- The registry state after the same websocket 1 subscribed twice to
location `"L"`. -/
def c2_loc_twice : MState :=
  (connect_to_location (connect_to_location initState 1 "L" none noFail).1
    1 "L" none noFail).1

/-- The registry state after the same websocket 1 subscribed twice to
conversation `"c"`. -/
def c2_conv_twice : MState :=
  (connect_to_conversation 10 (connect_to_conversation 10 initState 1 "c" none noFail).1
    1 "c" none noFail).1



theorem dget_dset {κ α : Type} [DecidableEq κ] (m : List (κ × α)) (k k' : κ) (v : α) :
    dget (dset m k v) k' = if k = k' then some v else dget m k' := by
  induction m with
  | nil =>
    by_cases h : k = k' <;> simp [dset, dget, h]
  | cons p t ih =>
    obtain ⟨k₀, v₀⟩ := p
    by_cases h₀ : k₀ = k
    · by_cases h : k = k'
      · simp [dset, dget, h₀, h, h₀.trans h]
      · have h2 : ¬ k₀ = k' := fun hh => h (h₀.symm.trans hh)
        simp [dset, dget, h₀, h, h2]
    · by_cases h : k₀ = k'
      · have hkk : ¬ k = k' := fun hh => h₀ (h.trans hh.symm)
        have hk'k : ¬ k' = k := fun hh => hkk hh.symm
        simp [dset, dget, h₀, h, hkk, hk'k]
      · simp [dset, dget, h₀, h, ih]

theorem dget_ddel {κ α : Type} [DecidableEq κ] (m : List (κ × α)) (k k' : κ) :
    dget (ddel m k) k' = if k = k' then none else dget m k' := by
  induction m with
  | nil => simp [ddel, dget]
  | cons p t ih =>
    obtain ⟨k₀, v₀⟩ := p
    by_cases h₀ : k₀ = k
    · by_cases h : k = k'
      · rw [h] at ih
        simp [ddel, dget, h₀, h, ih]
      · have h2 : ¬ k₀ = k' := fun hh => h (h₀.symm.trans hh)
        simp [ddel, dget, h₀, h, h2, ih]
    · by_cases h : k₀ = k'
      · have hkk : ¬ k = k' := fun hh => h₀ (h.trans hh.symm)
        have hk'k : ¬ k' = k := fun hh => hkk hh.symm
        simp [ddel, dget, h₀, h, hkk, hk'k]
      · simp [ddel, dget, h₀, h, ih]

theorem lremove_sublist (l : List Nat) (x : Nat) : (lremove l x).Sublist l := by
  induction l with
  | nil => simp [lremove]
  | cons y t ih =>
    by_cases h : y = x
    · simp [lremove, h]
    · simpa [lremove, h] using ih.cons₂ y

theorem mem_lremove_of_mem {l : List Nat} {x y : Nat} (h : y ∈ lremove l x) : y ∈ l :=
  (lremove_sublist l x).subset h

theorem count_lremove_le (l : List Nat) (x y : Nat) :
    (lremove l x).count y ≤ l.count y :=
  (lremove_sublist l x).count_le y

theorem not_mem_lremove_of_count_le_one {l : List Nat} {x : Nat}
    (h : l.count x ≤ 1) : x ∉ lremove l x := by
  induction l with
  | nil => simp [lremove]
  | cons y t ih =>
    by_cases hy : y = x
    · subst hy
      simp only [lremove, if_pos rfl]
      intro hx
      have h1 : 1 ≤ t.count y := List.one_le_count_iff.mpr hx
      have h2 : (y :: t).count y = t.count y + 1 := List.count_cons_self y t
      omega
    · simp only [lremove, if_neg hy, List.mem_cons]
      rintro (rfl | hx)
      · exact hy rfl
      · exact ih (le_trans ((List.sublist_cons_self y t).count_le x) h) hx

theorem length_lremove_of_mem {l : List Nat} {x : Nat} (h : x ∈ l) :
    (lremove l x).length = l.length - 1 := by
  induction l with
  | nil => simp at h
  | cons y t ih =>
    by_cases hy : y = x
    · simp [lremove, hy]
    · have ht : x ∈ t := by
        rcases List.mem_cons.mp h with rfl | ht
        · exact absurd rfl hy
        · exact ht
      have h1 : 0 < t.length := List.length_pos.mpr (List.ne_nil_of_mem ht)
      simp only [lremove, if_neg hy, List.length_cons, ih ht]
      omega

theorem mem_sendLoop_log (conns : List Nat) (excl : Option Nat) (fails : Nat → Bool)
    (msg : JObj) (w : Nat) (m : JMsg) :
    (w, m) ∈ (sendLoop conns excl fails msg).1 ↔
      w ∈ conns ∧ some w ≠ excl ∧ fails w = false ∧ m = JMsg.obj msg := by
  induction conns with
  | nil => simp [sendLoop]
  | cons v t ih =>
    by_cases he : some v = excl
    · simp only [sendLoop, if_pos he, ih, List.mem_cons]
      constructor
      · rintro ⟨hw, h⟩
        exact ⟨Or.inr hw, h⟩
      · rintro ⟨hw | hw, hne, hf, hm⟩
        · exact absurd he (hw ▸ hne)
        · exact ⟨hw, hne, hf, hm⟩
    · by_cases hf : fails v
      · simp only [sendLoop, if_neg he, if_pos hf, ih, List.mem_cons]
        constructor
        · rintro ⟨hw, h⟩
          exact ⟨Or.inr hw, h⟩
        · rintro ⟨hw | hw, hne, hfw, hm⟩
          · subst hw
            simp [hf] at hfw
          · exact ⟨hw, hne, hfw, hm⟩
      · simp only [sendLoop, if_neg he, if_neg hf, List.mem_cons, Prod.mk.injEq, ih]
        constructor
        · rintro (⟨rfl, rfl⟩ | ⟨hw, h⟩)
          · exact ⟨Or.inl rfl, he, by simpa using hf, rfl⟩
          · exact ⟨Or.inr hw, h⟩
        · rintro ⟨hw | hw, hne, hfw, hm⟩
          · exact Or.inl ⟨hw.symm ▸ rfl, hm⟩
          · exact Or.inr ⟨hw, hne, hfw, hm⟩

theorem sendLoop_no_fail (conns : List Nat) (excl : Option Nat) (fails : Nat → Bool)
    (msg : JObj) (h : ∀ w ∈ conns, fails w = false) :
    sendLoop conns excl fails msg =
      ((conns.filter (fun w => decide (some w ≠ excl))).map (fun w => (w, JMsg.obj msg)), []) := by
  induction conns with
  | nil => simp [sendLoop]
  | cons v t ih =>
    have hv : fails v = false := h v (List.mem_cons_self v t)
    have ht : ∀ w ∈ t, fails w = false := fun w hw => h w (List.mem_cons_of_mem v hw)
    by_cases he : some v = excl
    · simp [sendLoop, he, ih ht, List.filter_cons, hv]
    · simp [sendLoop, he, hv, ih ht, List.filter_cons]

theorem sendLoop_dis_nil (conns : List Nat) (excl : Option Nat) (fails : Nat → Bool)
    (msg : JObj) (h : ∀ w ∈ conns, fails w = false) :
    (sendLoop conns excl fails msg).2 = [] := by
  rw [sendLoop_no_fail conns excl fails msg h]

theorem sendLoop_dis_single (conns : List Nat) (excl : Option Nat) (fails : Nat → Bool)
    (msg : JObj) (w₀ : Nat) (hnd : conns.Nodup) (hw : w₀ ∈ conns)
    (hex : some w₀ ≠ excl) (hf : fails w₀ = true)
    (hothers : ∀ w ∈ conns, w ≠ w₀ → fails w = false) :
    (sendLoop conns excl fails msg).2 = [w₀] := by
  induction conns with
  | nil => simp at hw
  | cons v t ih =>
    rcases List.mem_cons.mp hw with rfl | hwt
    · have htf : ∀ w ∈ t, fails w = false := by
        intro w hwt'
        have hne : w ≠ w₀ := by
          intro hh
          subst hh
          exact (List.nodup_cons.mp hnd).1 hwt'
        exact hothers w (List.mem_cons_of_mem w₀ hwt') hne
      simp [sendLoop, hex, hf, sendLoop_dis_nil t excl fails msg htf]
    · have hv : v ≠ w₀ := by
        intro hh
        subst hh
        exact (List.nodup_cons.mp hnd).1 hwt
      have hvf : fails v = false := hothers v (List.mem_cons_self v t) hv
      have ih' := ih (List.nodup_cons.mp hnd).2 hwt
        (fun w hw' hne => hothers w (List.mem_cons_of_mem v hw') hne)
      by_cases he : some v = excl
      · simp [sendLoop, he, ih']
      · simp [sendLoop, he, hvf, ih']

theorem disc_state_loc (s : MState) (ws : Nat) (c : String) (uid : Option String) :
    (disc_conv_state s ws c uid).location_connections = s.location_connections := rfl

theorem disc_state_wu_self (s : MState) (ws : Nat) (c : String) (uid : Option String) :
    dget (disc_conv_state s ws c uid).websocket_users ws = none := by
  by_cases h : (dget s.websocket_users ws).isSome
  · simp [disc_conv_state, h, dget_ddel]
  · simp only [disc_conv_state, if_neg h]
    exact Option.not_isSome_iff_eq_none.mp h

theorem disc_state_wu_mono (s : MState) (ws w : Nat) (c : String) (uid : Option String)
    (h : dget s.websocket_users w = none) :
    dget (disc_conv_state s ws c uid).websocket_users w = none := by
  by_cases hs : (dget s.websocket_users ws).isSome
  · simp only [disc_conv_state, if_pos hs, dget_ddel]
    split <;> simp [h]
  · simp only [disc_conv_state, if_neg hs]
    exact h

theorem disc_state_cc_other (s : MState) (ws : Nat) (c c' : String) (uid : Option String)
    (h : c ≠ c') :
    dget (disc_conv_state s ws c uid).conversation_connections c' =
      dget s.conversation_connections c' := by
  rcases hc : dget s.conversation_connections c with _ | conns
  · simp [disc_conv_state, hc]
  · by_cases hm : ws ∈ conns
    · by_cases hnil : lremove conns ws = []
      · simp [disc_conv_state, hc, hm, hnil, dget_ddel, h]
      · simp [disc_conv_state, hc, hm, hnil, dget_dset, h]
    · simp [disc_conv_state, hc, hm]

theorem disc_state_cc_not_mem (s : MState) (ws w : Nat) (c c' : String) (uid : Option String)
    (h : w ∉ ((dget s.conversation_connections c').getD [])) :
    w ∉ ((dget (disc_conv_state s ws c uid).conversation_connections c').getD []) := by
  by_cases hcc : c = c'
  · subst hcc
    rcases hc : dget s.conversation_connections c with _ | conns
    · simp [disc_conv_state, hc]
    · rw [hc] at h
      simp only [Option.getD_some] at h
      by_cases hm : ws ∈ conns
      · by_cases hnil : lremove conns ws = []
        · simp [disc_conv_state, hc, hm, hnil, dget_ddel]
        · simp only [disc_conv_state, hc, hm, if_pos, if_neg hnil, dget_dset, if_pos rfl]
          simp only [Option.getD_some] at h ⊢
          exact fun hmem => h (mem_lremove_of_mem hmem)
      · simp [disc_conv_state, hc, hm, h]
  · rw [disc_state_cc_other s ws c c' uid hcc]
    exact h

theorem disc_state_cc_self (s : MState) (ws : Nat) (c : String) (uid : Option String)
    (h : ((dget s.conversation_connections c).getD []).count ws ≤ 1) :
    ws ∉ ((dget (disc_conv_state s ws c uid).conversation_connections c).getD []) := by
  rcases hc : dget s.conversation_connections c with _ | conns
  · simp [disc_conv_state, hc]
  · rw [hc] at h
    simp only [Option.getD_some] at h
    by_cases hm : ws ∈ conns
    · by_cases hnil : lremove conns ws = []
      · simp [disc_conv_state, hc, hm, hnil, dget_ddel]
      · simp only [disc_conv_state, hc, hm, if_pos, if_neg hnil, dget_dset, if_pos rfl]
        simp only [Option.getD_some]
        exact not_mem_lremove_of_count_le_one h
    · simp [disc_conv_state, hc, hm, hm]

theorem disc_state_id (s : MState) (ws : Nat) (c : String)
    (h1 : ws ∉ ((dget s.conversation_connections c).getD []))
    (h2 : dget s.websocket_users ws = none) :
    disc_conv_state s ws c none = s := by
  have hs : ¬ (dget s.websocket_users ws).isSome := by simp [h2]
  rcases hc : dget s.conversation_connections c with _ | conns
  · simp [disc_conv_state, hc, hs]
  · rw [hc] at h1
    simp only [Option.getD_some] at h1
    simp [disc_conv_state, hc, h1, hs]

theorem shrinks_refl (s : MState) : Shrinks s s :=
  ⟨fun _ h => h, fun _ _ h => h⟩

theorem shrinks_trans {s s' s'' : MState} (h1 : Shrinks s s') (h2 : Shrinks s' s'') :
    Shrinks s s'' :=
  ⟨fun w h => h2.1 w (h1.1 w h), fun c w h => h2.2 c w (h1.2 c w h)⟩

theorem shrinks_disc_state (s : MState) (ws : Nat) (c : String) (uid : Option String) :
    Shrinks s (disc_conv_state s ws c uid) :=
  ⟨fun w h => disc_state_wu_mono s ws w c uid h,
   fun c' w h => disc_state_cc_not_mem s ws w c c' uid h⟩

theorem conv_shrinks (fuel : Nat) :
    (∀ s c msg excl fails, Shrinks s (broadcast_to_conversation fuel s c msg excl fails).1) ∧
    (∀ s ws c fails, Shrinks s (disconnect_from_conversation fuel s ws c fails).1) ∧
    (∀ dis s c fails acc, Shrinks s (cleanupConv fuel s c fails dis acc).1) := by
  induction fuel with
  | zero =>
    have hb : ∀ s c msg excl fails,
        Shrinks s (broadcast_to_conversation 0 s c msg excl fails).1 := by
      intro s c msg excl fails
      rcases h : dget s.conversation_connections c with _ | conns <;>
        simp [broadcast_to_conversation, h, shrinks_refl]
    have hd : ∀ s ws c fails,
        Shrinks s (disconnect_from_conversation 0 s ws c fails).1 := by
      intro s ws c fails
      rcases hu : dget s.websocket_users ws with _ | u <;>
        simp only [disconnect_from_conversation, hu]
      · exact shrinks_disc_state s ws c none
      · exact shrinks_trans (shrinks_disc_state s ws c (some u)) (hb _ _ _ _ _)
    refine ⟨hb, hd, ?_⟩
    intro dis
    induction dis with
    | nil => intro s c fails acc; simp [cleanupConv, shrinks_refl]
    | cons w t ih =>
      intro s c fails acc
      simp only [cleanupConv]
      exact shrinks_trans (hd s w c fails) (ih _ _ _ _)
  | succ f ih =>
    have hb : ∀ s c msg excl fails,
        Shrinks s (broadcast_to_conversation (f + 1) s c msg excl fails).1 := by
      intro s c msg excl fails
      rcases h : dget s.conversation_connections c with _ | conns
      · simp [broadcast_to_conversation, h, shrinks_refl]
      · simp only [broadcast_to_conversation, h]
        exact ih.2.2 _ _ _ _ _
    have hd : ∀ s ws c fails,
        Shrinks s (disconnect_from_conversation (f + 1) s ws c fails).1 := by
      intro s ws c fails
      rcases hu : dget s.websocket_users ws with _ | u <;>
        simp only [disconnect_from_conversation, hu]
      · exact shrinks_disc_state s ws c none
      · exact shrinks_trans (shrinks_disc_state s ws c (some u)) (hb _ _ _ _ _)
    refine ⟨hb, hd, ?_⟩
    intro dis
    induction dis with
    | nil => intro s c fails acc; simp [cleanupConv, shrinks_refl]
    | cons w t ih' =>
      intro s c fails acc
      simp only [cleanupConv]
      exact shrinks_trans (hd s w c fails) (ih' _ _ _ _)

theorem scopesGood_nil : scopesGood [] := by
  intro k l h
  simp [dget] at h

theorem goodState_init : GoodState initState :=
  ⟨scopesGood_nil, scopesGood_nil⟩

theorem scopesGood_dset {m : List (String × List Nat)} {k : String} {v : List Nat}
    (hm : scopesGood m) (hv : v ≠ []) : scopesGood (dset m k v) := by
  intro k' l h
  rw [dget_dset] at h
  split_ifs at h
  · cases h
    exact hv
  · exact hm k' l h

theorem scopesGood_dset' {m : List (String × List Nat)} {k : String} {v : List Nat}
    (hm : ∀ k' l, ¬ k = k' → dget m k' = some l → l ≠ []) (hv : v ≠ []) :
    scopesGood (dset m k v) := by
  intro k' l h
  rw [dget_dset] at h
  split_ifs at h with hk
  · cases h
    exact hv
  · exact hm k' l hk h

theorem scopesGood_ddel {m : List (String × List Nat)} {k : String}
    (hm : scopesGood m) : scopesGood (ddel m k) := by
  intro k' l h
  rw [dget_ddel] at h
  split_ifs at h
  exact hm k' l h

theorem good_disc_state (s : MState) (ws : Nat) (c : String) (uid : Option String)
    (h : GoodState s) : GoodState (disc_conv_state s ws c uid) := by
  obtain ⟨hl, hc⟩ := h
  refine ⟨by rw [disc_state_loc]; exact hl, ?_⟩
  rcases hcc : dget s.conversation_connections c with _ | conns
  · simpa [disc_conv_state, hcc] using hc
  · by_cases hm : ws ∈ conns
    · by_cases hnil : lremove conns ws = []
      · simpa [disc_conv_state, hcc, hm, hnil] using scopesGood_ddel hc
      · simpa [disc_conv_state, hcc, hm, hnil] using scopesGood_dset hc hnil
    · simpa [disc_conv_state, hcc, hm] using hc

theorem good_disc_loc (s : MState) (ws : Nat) (loc : String)
    (h : GoodState s) : GoodState (disconnect_from_location s ws loc) := by
  obtain ⟨hl, hc⟩ := h
  refine ⟨?_, hc⟩
  rcases hcc : dget s.location_connections loc with _ | conns
  · simpa [disconnect_from_location, hcc] using hl
  · by_cases hm : ws ∈ conns
    · by_cases hnil : lremove conns ws = []
      · simpa [disconnect_from_location, hcc, hm, hnil] using scopesGood_ddel hl
      · simpa [disconnect_from_location, hcc, hm, hnil] using scopesGood_dset hl hnil
    · simpa [disconnect_from_location, hcc, hm] using hl

theorem good_foldl_disc_loc (dis : List Nat) (s : MState) (loc : String)
    (h : GoodState s) :
    GoodState (dis.foldl (fun st w => disconnect_from_location st w loc) s) := by
  induction dis generalizing s with
  | nil => exact h
  | cons w t ih => exact ih _ (good_disc_loc s w loc h)

theorem good_broadcast_loc (s : MState) (loc : String) (msg : JObj) (excl : Option Nat)
    (fails : Nat → Bool) (h : GoodState s) :
    GoodState (broadcast_to_location s loc msg excl fails).1 := by
  rcases hcc : dget s.location_connections loc with _ | conns
  · simpa [broadcast_to_location, hcc] using h
  · simpa [broadcast_to_location, hcc] using good_foldl_disc_loc _ s loc h

theorem good_connect_loc (s : MState) (ws : Nat) (loc : String) (uid : Option String)
    (fails : Nat → Bool) (h : GoodState s) :
    GoodState (connect_to_location s ws loc uid fails).1 := by
  obtain ⟨hl, hc⟩ := h
  have key1 : scopesGood (dset s.location_connections loc
      ((dget s.location_connections loc).getD [] ++ [ws])) :=
    scopesGood_dset' (fun k' l _ hk => hl k' l hk) (by simp)
  have key2 : scopesGood (dset (dset s.location_connections loc []) loc
      ((dget (dset s.location_connections loc []) loc).getD [] ++ [ws])) := by
    refine scopesGood_dset' ?_ (by simp)
    intro k' l hk hdk
    rw [dget_dset, if_neg hk] at hdk
    exact hl k' l hdk
  by_cases hex : (dget s.location_connections loc).isSome
  · rcases uid with _ | u
    · exact ⟨by simpa [connect_to_location, hex] using key1,
             by simpa [connect_to_location, hex] using hc⟩
    · exact ⟨by simpa [connect_to_location, hex] using key1,
             by simpa [connect_to_location, hex] using hc⟩
  · rcases uid with _ | u
    · exact ⟨by simpa [connect_to_location, hex] using key2,
             by simpa [connect_to_location, hex] using hc⟩
    · exact ⟨by simpa [connect_to_location, hex] using key2,
             by simpa [connect_to_location, hex] using hc⟩

theorem good_conn_conv_state (s : MState) (ws : Nat) (c : String) (uid : Option String)
    (h : GoodState s) : GoodState (conn_conv_state s ws c uid) := by
  obtain ⟨hl, hc⟩ := h
  have key1 : scopesGood (dset s.conversation_connections c
      ((dget s.conversation_connections c).getD [] ++ [ws])) :=
    scopesGood_dset' (fun k' l _ hk => hc k' l hk) (by simp)
  have key2 : scopesGood (dset (dset s.conversation_connections c []) c
      ((dget (dset s.conversation_connections c []) c).getD [] ++ [ws])) := by
    refine scopesGood_dset' ?_ (by simp)
    intro k' l hk hdk
    rw [dget_dset, if_neg hk] at hdk
    exact hc k' l hdk
  by_cases hex : (dget s.conversation_connections c).isSome
  · rcases uid with _ | u
    · exact ⟨by simpa [conn_conv_state, hex] using hl,
             by simpa [conn_conv_state, hex] using key1⟩
    · exact ⟨by simpa [conn_conv_state, hex] using hl,
             by simpa [conn_conv_state, hex] using key1⟩
  · rcases uid with _ | u
    · exact ⟨by simpa [conn_conv_state, hex] using hl,
             by simpa [conn_conv_state, hex] using key2⟩
    · exact ⟨by simpa [conn_conv_state, hex] using hl,
             by simpa [conn_conv_state, hex] using key2⟩

theorem conv_good (fuel : Nat) :
    (∀ s c msg excl fails, GoodState s →
        GoodState (broadcast_to_conversation fuel s c msg excl fails).1) ∧
    (∀ s ws c fails, GoodState s →
        GoodState (disconnect_from_conversation fuel s ws c fails).1) ∧
    (∀ dis s c fails acc, GoodState s →
        GoodState (cleanupConv fuel s c fails dis acc).1) := by
  induction fuel with
  | zero =>
    have hb : ∀ s c msg excl fails, GoodState s →
        GoodState (broadcast_to_conversation 0 s c msg excl fails).1 := by
      intro s c msg excl fails h
      rcases hc : dget s.conversation_connections c with _ | conns <;>
        · simp only [broadcast_to_conversation, hc]
          exact h
    have hd : ∀ s ws c fails, GoodState s →
        GoodState (disconnect_from_conversation 0 s ws c fails).1 := by
      intro s ws c fails h
      rcases hu : dget s.websocket_users ws with _ | u <;>
        simp only [disconnect_from_conversation, hu]
      · exact good_disc_state s ws c none h
      · exact hb _ _ _ _ _ (good_disc_state s ws c (some u) h)
    refine ⟨hb, hd, ?_⟩
    intro dis
    induction dis with
    | nil =>
      intro s c fails acc h
      simp only [cleanupConv]
      exact h
    | cons w t ih =>
      intro s c fails acc h
      simp only [cleanupConv]
      exact ih _ _ _ _ (hd s w c fails h)
  | succ f ih =>
    have hb : ∀ s c msg excl fails, GoodState s →
        GoodState (broadcast_to_conversation (f + 1) s c msg excl fails).1 := by
      intro s c msg excl fails h
      rcases hc : dget s.conversation_connections c with _ | conns
      · simp only [broadcast_to_conversation, hc]
        exact h
      · simp only [broadcast_to_conversation, hc]
        exact ih.2.2 _ _ _ _ _ h
    have hd : ∀ s ws c fails, GoodState s →
        GoodState (disconnect_from_conversation (f + 1) s ws c fails).1 := by
      intro s ws c fails h
      rcases hu : dget s.websocket_users ws with _ | u <;>
        simp only [disconnect_from_conversation, hu]
      · exact good_disc_state s ws c none h
      · exact hb _ _ _ _ _ (good_disc_state s ws c (some u) h)
    refine ⟨hb, hd, ?_⟩
    intro dis
    induction dis with
    | nil =>
      intro s c fails acc h
      simp only [cleanupConv]
      exact h
    | cons w t ih' =>
      intro s c fails acc h
      simp only [cleanupConv]
      exact ih' _ _ _ _ (hd s w c fails h)

theorem good_connect_conv (fuel : Nat) (s : MState) (ws : Nat) (c : String)
    (uid : Option String) (fails : Nat → Bool) (h : GoodState s) :
    GoodState (connect_to_conversation fuel s ws c uid fails).1 := by
  have h1 := good_conn_conv_state s ws c uid h
  simp only [connect_to_conversation]
  exact (conv_good fuel).1 _ _ _ _ _ h1

theorem reachable_good {s : MState} (h : Reachable s) : GoodState s := by
  induction h with
  | init => exact goodState_init
  | conn_loc s ws loc uid fails _ ih => exact good_connect_loc s ws loc uid fails ih
  | disc_loc s ws loc _ ih => exact good_disc_loc s ws loc ih
  | bcast_loc s loc msg excl fails _ ih => exact good_broadcast_loc s loc msg excl fails ih
  | conn_conv fuel s ws c uid fails _ ih => exact good_connect_conv fuel s ws c uid fails ih
  | disc_conv fuel s ws c fails _ ih => exact (conv_good fuel).2.1 s ws c fails ih
  | bcast_conv fuel s c msg excl fails _ ih => exact (conv_good fuel).1 s c msg excl fails ih

theorem broadcast_conv_absent (fuel : Nat) (s : MState) (c : String) (msg : JObj)
    (excl : Option Nat) (fails : Nat → Bool)
    (h : dget s.conversation_connections c = none) :
    broadcast_to_conversation fuel s c msg excl fails = (s, []) := by
  cases fuel <;> simp [broadcast_to_conversation, h]

theorem disc_state_last (s : MState) (ws : Nat) (c : String) (uid : Option String)
    (h : dget s.conversation_connections c = some [ws]) :
    dget (disc_conv_state s ws c uid).conversation_connections c = none ∧
    dget (disc_conv_state s ws c uid).conversation_users c = none := by
  have hrem : lremove [ws] ws = [] := by simp [lremove]
  rcases uid with _ | u <;> by_cases hus : (dget s.conversation_users c).isSome
  · constructor <;> simp [disc_conv_state, h, hrem, hus, dget_ddel]
  · have hun : dget s.conversation_users c = none := Option.not_isSome_iff_eq_none.mp hus
    constructor <;> simp [disc_conv_state, h, hrem, hus, hun, dget_ddel]
  · constructor <;> simp [disc_conv_state, h, hrem, hus, dget_ddel]
  · have hun : dget s.conversation_users c = none := Option.not_isSome_iff_eq_none.mp hus
    constructor <;> simp [disc_conv_state, h, hrem, hus, hun, dget_ddel]

theorem last_disc_conv (fuel : Nat) (s : MState) (ws : Nat) (c : String)
    (fails : Nat → Bool) (h : dget s.conversation_connections c = some [ws]) :
    dget ((disconnect_from_conversation fuel s ws c fails).1).conversation_connections c
        = none ∧
    dget ((disconnect_from_conversation fuel s ws c fails).1).conversation_users c = none ∧
    conv_subscriber_count (disconnect_from_conversation fuel s ws c fails).1 c = 0 := by
  rcases hu : dget s.websocket_users ws with _ | u
  · have hlast := disc_state_last s ws c none h
    simp only [disconnect_from_conversation, hu]
    exact ⟨hlast.1, hlast.2, by simp [conv_subscriber_count, hlast.1]⟩
  · have hlast := disc_state_last s ws c (some u) h
    simp only [disconnect_from_conversation, hu]
    rw [broadcast_conv_absent fuel _ c _ none fails hlast.1]
    exact ⟨hlast.1, hlast.2, by simp [conv_subscriber_count, hlast.1]⟩

theorem last_disc_loc (s : MState) (ws : Nat) (loc : String)
    (h : dget s.location_connections loc = some [ws]) :
    dget (disconnect_from_location s ws loc).location_connections loc = none ∧
    get_active_users_in_location (disconnect_from_location s ws loc) loc = 0 := by
  have hrem : lremove [ws] ws = [] := by simp [lremove]
  have h1 : dget (disconnect_from_location s ws loc).location_connections loc = none := by
    simp [disconnect_from_location, h, hrem, dget_ddel]
  exact ⟨h1, by simp [get_active_users_in_location, h1]⟩

/-- C4: empty-scope invariant.  In every reachable registry state a scope key
present in a scope map carries a non-empty subscriber list (key present iff
at least one subscriber); and when the last connection unsubscribes, the
scope entry is deleted — for conversation scopes together with its
present-user set — and the subscriber count of that scope is then 0. -/
theorem c4_empty_scope_invariant :
    (∀ s, Reachable s → GoodState s) ∧
    (∀ s ws loc, dget s.location_connections loc = some [ws] →
      dget (disconnect_from_location s ws loc).location_connections loc = none ∧
      get_active_users_in_location (disconnect_from_location s ws loc) loc = 0) ∧
    (∀ fuel s ws c fails, dget s.conversation_connections c = some [ws] →
      dget ((disconnect_from_conversation fuel s ws c fails).1).conversation_connections c
          = none ∧
      dget ((disconnect_from_conversation fuel s ws c fails).1).conversation_users c
          = none ∧
      conv_subscriber_count (disconnect_from_conversation fuel s ws c fails).1 c = 0) :=
  ⟨fun _ h => reachable_good h,
   fun s ws loc h => last_disc_loc s ws loc h,
   fun fuel s ws c fails h => last_disc_conv fuel s ws c fails h⟩

/-- C4 witness: the invariant holds of the initial state, and the two
last-unsubscribe conclusions hold at concrete one-subscriber states. -/
theorem c4_empty_scope_invariant_witness :
    GoodState initState ∧
    (dget (disconnect_from_location ⟨[("L", [5])], [], [], []⟩ 5 "L").location_connections "L"
        = none ∧
      get_active_users_in_location (disconnect_from_location ⟨[("L", [5])], [], [], []⟩ 5 "L") "L"
        = 0) ∧
    (dget ((disconnect_from_conversation 1 ⟨[], [("c", [7])], [], [("c", ["u"])]⟩ 7 "c"
          noFail).1).conversation_connections "c" = none ∧
      dget ((disconnect_from_conversation 1 ⟨[], [("c", [7])], [], [("c", ["u"])]⟩ 7 "c"
          noFail).1).conversation_users "c" = none ∧
      conv_subscriber_count (disconnect_from_conversation 1 ⟨[], [("c", [7])], [], [("c", ["u"])]⟩
          7 "c" noFail).1 "c" = 0) :=
  ⟨c4_empty_scope_invariant.1 initState Reachable.init,
   c4_empty_scope_invariant.2.1 ⟨[("L", [5])], [], [], []⟩ 5 "L" rfl,
   c4_empty_scope_invariant.2.2 1 ⟨[], [("c", [7])], [], [("c", ["u"])]⟩ 7 "c" noFail rfl⟩

theorem mem_sendLoop_dis (conns : List Nat) (excl : Option Nat) (fails : Nat → Bool)
    (msg : JObj) (w : Nat) :
    w ∈ (sendLoop conns excl fails msg).2 ↔
      w ∈ conns ∧ some w ≠ excl ∧ fails w = true := by
  induction conns with
  | nil => simp [sendLoop]
  | cons v t ih =>
    by_cases he : some v = excl
    · simp only [sendLoop, if_pos he, ih, List.mem_cons]
      constructor
      · rintro ⟨hw, h⟩
        exact ⟨Or.inr hw, h⟩
      · rintro ⟨hw | hw, hne, hf⟩
        · exact absurd he (hw ▸ hne)
        · exact ⟨hw, hne, hf⟩
    · by_cases hf : fails v
      · simp only [sendLoop, if_neg he, if_pos hf, List.mem_cons, ih]
        constructor
        · rintro (rfl | ⟨hw, h⟩)
          · exact ⟨Or.inl rfl, he, hf⟩
          · exact ⟨Or.inr hw, h⟩
        · rintro ⟨hw | hw, hne, hfw⟩
          · exact Or.inl hw
          · exact Or.inr ⟨hw, hne, hfw⟩
      · simp only [sendLoop, if_neg he, if_neg hf, List.mem_cons, ih]
        constructor
        · rintro ⟨hw, h⟩
          exact ⟨Or.inr hw, h⟩
        · rintro ⟨hw | hw, hne, hfw⟩
          · subst hw
            simp [hfw] at hf
          · exact ⟨hw, hne, hfw⟩

theorem broadcast_loc_no_fail (s : MState) (loc : String) (msg : JObj) (excl : Option Nat)
    (fails : Nat → Bool) (conns : List Nat)
    (h : dget s.location_connections loc = some conns)
    (hf : ∀ w ∈ conns, fails w = false) :
    broadcast_to_location s loc msg excl fails =
      (s, (conns.filter (fun w => decide (some w ≠ excl))).map (fun w => (w, JMsg.obj msg))) := by
  simp [broadcast_to_location, h, sendLoop_no_fail conns excl fails msg hf]

theorem broadcast_conv_no_fail (fuel : Nat) (s : MState) (c : String) (msg : JObj)
    (excl : Option Nat) (fails : Nat → Bool) (conns : List Nat)
    (h : dget s.conversation_connections c = some conns)
    (hf : ∀ w ∈ conns, fails w = false) :
    broadcast_to_conversation fuel s c msg excl fails =
      (s, (conns.filter (fun w => decide (some w ≠ excl))).map (fun w => (w, JMsg.obj msg))) := by
  have hsl := sendLoop_no_fail conns excl fails msg hf
  cases fuel with
  | zero => simp [broadcast_to_conversation, h, hsl]
  | succ f => simp [broadcast_to_conversation, h, hsl, cleanupConv]

theorem disconnect_conv_anon (fuel : Nat) (s : MState) (ws : Nat) (c : String)
    (fails : Nat → Bool) (h : dget s.websocket_users ws = none) :
    disconnect_from_conversation fuel s ws c fails = (disc_conv_state s ws c none, []) := by
  simp only [disconnect_from_conversation, h]

theorem cleanupConv_anon (dis : List Nat) : ∀ (fuel : Nat) (s : MState) (c : String)
    (fails : Nat → Bool) (acc : List (Nat × JMsg)),
    (∀ w ∈ dis, dget s.websocket_users w = none) →
    (cleanupConv fuel s c fails dis acc).2 = acc := by
  induction dis with
  | nil =>
    intro fuel s c fails acc _
    simp [cleanupConv]
  | cons w t ih =>
    intro fuel s c fails acc h
    simp only [cleanupConv, disconnect_conv_anon fuel s w c fails
      (h w (List.mem_cons_self w t)), List.append_nil]
    exact ih fuel _ c fails acc
      (fun w' hw' => disc_state_wu_mono s w w' c none (h w' (List.mem_cons_of_mem w hw')))

theorem broadcast_conv_log_anon (fuel : Nat) (s : MState) (c : String) (msg : JObj)
    (excl : Option Nat) (fails : Nat → Bool) (conns : List Nat)
    (h : dget s.conversation_connections c = some conns)
    (hanon : ∀ w, fails w = true → dget s.websocket_users w = none) :
    (broadcast_to_conversation fuel s c msg excl fails).2 =
      (sendLoop conns excl fails msg).1 := by
  cases fuel with
  | zero => simp [broadcast_to_conversation, h]
  | succ f =>
    simp only [broadcast_to_conversation, h]
    exact cleanupConv_anon _ f s c fails _
      (fun w hw => hanon w ((mem_sendLoop_dis conns excl fails msg w).mp hw).2.2)

/-- C7: exclusion correctness.  A broadcast to a scope with `exclude = C`
never logs a delivery to `C`, and the event is delivered to every other
member of the snapshot of the scope's subscriber list whose send does not
fail.  For conversation scopes the statement assumes the failing
connections carry no user-index entry (as in this application, whose routes
never register one), so that the cleanup phase broadcasts no `user_left`
frames. -/
theorem c7_exclusion_correctness :
    (∀ s loc msg C fails conns,
      dget s.location_connections loc = some conns →
      (∀ m, (C, m) ∉ (broadcast_to_location s loc msg (some C) fails).2) ∧
      (∀ w ∈ conns, w ≠ C → fails w = false →
        (w, JMsg.obj msg) ∈ (broadcast_to_location s loc msg (some C) fails).2)) ∧
    (∀ fuel s c msg C fails conns,
      dget s.conversation_connections c = some conns →
      (∀ w, fails w = true → dget s.websocket_users w = none) →
      (∀ m, (C, m) ∉ (broadcast_to_conversation fuel s c msg (some C) fails).2) ∧
      (∀ w ∈ conns, w ≠ C → fails w = false →
        (w, JMsg.obj msg) ∈ (broadcast_to_conversation fuel s c msg (some C) fails).2)) := by
  constructor
  · intro s loc msg C fails conns h
    simp only [broadcast_to_location, h]
    constructor
    · intro m hm
      obtain ⟨-, hne, -, -⟩ := (mem_sendLoop_log conns (some C) fails msg C m).mp hm
      exact hne rfl
    · intro w hw hwC hf
      exact (mem_sendLoop_log conns (some C) fails msg w (JMsg.obj msg)).mpr
        ⟨hw, fun hh => hwC (Option.some.inj hh), hf, rfl⟩
  · intro fuel s c msg C fails conns h hanon
    rw [broadcast_conv_log_anon fuel s c msg (some C) fails conns h hanon]
    constructor
    · intro m hm
      obtain ⟨-, hne, -, -⟩ := (mem_sendLoop_log conns (some C) fails msg C m).mp hm
      exact hne rfl
    · intro w hw hwC hf
      exact (mem_sendLoop_log conns (some C) fails msg w (JMsg.obj msg)).mpr
        ⟨hw, fun hh => hwC (Option.some.inj hh), hf, rfl⟩

/-- C7 witness: in a location scope `"L"` with subscribers 1, 2, 3 and a
conversation scope `"c"` with subscribers 4, 5, broadcasting with
exclusion 1 (resp. 4) delivers to subscriber 2 (resp. 5) and never to the
excluded connection. -/
theorem c7_exclusion_correctness_witness :
    ((1, JMsg.obj [("k", JVal.str "v")]) ∉
        (broadcast_to_location ⟨[("L", [1, 2, 3])], [], [], []⟩ "L" [("k", JVal.str "v")]
          (some 1) noFail).2 ∧
      (2, JMsg.obj [("k", JVal.str "v")]) ∈
        (broadcast_to_location ⟨[("L", [1, 2, 3])], [], [], []⟩ "L" [("k", JVal.str "v")]
          (some 1) noFail).2) ∧
    ((4, JMsg.obj [("k", JVal.str "v")]) ∉
        (broadcast_to_conversation 3 ⟨[], [("c", [4, 5])], [], []⟩ "c" [("k", JVal.str "v")]
          (some 4) noFail).2 ∧
      (5, JMsg.obj [("k", JVal.str "v")]) ∈
        (broadcast_to_conversation 3 ⟨[], [("c", [4, 5])], [], []⟩ "c" [("k", JVal.str "v")]
          (some 4) noFail).2) := by
  have hl := c7_exclusion_correctness.1 ⟨[("L", [1, 2, 3])], [], [], []⟩ "L"
    [("k", JVal.str "v")] 1 noFail [1, 2, 3] rfl
  have hc := c7_exclusion_correctness.2 3 ⟨[], [("c", [4, 5])], [], []⟩ "c"
    [("k", JVal.str "v")] 4 noFail [4, 5] rfl (fun w hw => by simp [noFail] at hw)
  exact ⟨⟨hl.1 (JMsg.obj [("k", JVal.str "v")]),
          hl.2 2 (by decide) (by decide) rfl⟩,
         ⟨hc.1 (JMsg.obj [("k", JVal.str "v")]),
          hc.2 5 (by decide) (by decide) rfl⟩⟩

/-- C6: malformed inbound control messages are ignored.  On the location
channel only the literal `"ping"` gets a reply; on the conversation channel a
JSON object whose `type` is neither `"typing"` nor `"ping"` leaves the
registry untouched and produces no outbound frame; `ping` is answered with
`pong` to the sender only, and `typing` is relayed exactly to the other
current subscribers of the conversation. -/
theorem c6_malformed_ignored :
    (∀ s ws data, data ≠ "ping" → handle_location_message s ws data = (s, [])) ∧
    (∀ s ws, handle_location_message s ws "ping" = (s, [(ws, JMsg.text "pong")])) ∧
    (∀ fuel s ws c data fails,
      dget data "type" ≠ some (JVal.str "typing") →
      dget data "type" ≠ some (JVal.str "ping") →
      handle_conversation_message fuel s ws c data fails = (s, [])) ∧
    (∀ fuel s ws c data fails, dget data "type" = some (JVal.str "ping") →
      handle_conversation_message fuel s ws c data fails =
        (s, [(ws, JMsg.obj [("type", JVal.str "pong")])])) ∧
    (∀ fuel s ws c data conns,
      dget data "type" = some (JVal.str "typing") →
      dget s.conversation_connections c = some conns →
      handle_conversation_message fuel s ws c data noFail =
        (s, (conns.filter (fun w => decide (some w ≠ some ws))).map
              (fun w => (w, JMsg.obj (typingRelay data))))) := by
  refine ⟨?_, ?_, ?_, ?_, ?_⟩
  · intro s ws data h
    simp [handle_location_message, h]
  · intro s ws
    simp [handle_location_message]
  · intro fuel s ws c data fails h1 h2
    simp [handle_conversation_message, h1, h2]
  · intro fuel s ws c data fails h
    simp [handle_conversation_message, h]
  · intro fuel s ws c data conns h hc
    simp only [handle_conversation_message, h, if_pos rfl]
    exact broadcast_conv_no_fail fuel s c (typingRelay data) (some ws) noFail conns hc
      (fun w _ => rfl)

/-- C6 witness: concrete malformed messages (`"hello"` on a location channel;
objects with a missing or unknown `type` on a conversation channel) are
dropped with no state change and no reply, while `ping` and `typing` behave
as specified. -/
theorem c6_malformed_ignored_witness :
    handle_location_message ⟨[("L", [1])], [], [], []⟩ 1 "hello" =
        (⟨[("L", [1])], [], [], []⟩, []) ∧
    handle_location_message ⟨[("L", [1])], [], [], []⟩ 1 "ping" =
        (⟨[("L", [1])], [], [], []⟩, [(1, JMsg.text "pong")]) ∧
    handle_conversation_message 2 ⟨[], [("c", [1, 2])], [], []⟩ 1 "c"
        [("type", JVal.str "junk")] noFail = (⟨[], [("c", [1, 2])], [], []⟩, []) ∧
    handle_conversation_message 2 ⟨[], [("c", [1, 2])], [], []⟩ 1 "c"
        [("user_id", JVal.str "u")] noFail = (⟨[], [("c", [1, 2])], [], []⟩, []) ∧
    handle_conversation_message 2 ⟨[], [("c", [1, 2])], [], []⟩ 1 "c"
        [("type", JVal.str "ping")] noFail =
        (⟨[], [("c", [1, 2])], [], []⟩, [(1, JMsg.obj [("type", JVal.str "pong")])]) ∧
    handle_conversation_message 2 ⟨[], [("c", [1, 2])], [], []⟩ 1 "c"
        [("type", JVal.str "typing"), ("user_id", JVal.str "u1"),
         ("is_typing", JVal.bool true)] noFail =
        (⟨[], [("c", [1, 2])], [], []⟩,
         [(2, JMsg.obj (typingRelay [("type", JVal.str "typing"), ("user_id", JVal.str "u1"),
            ("is_typing", JVal.bool true)]))]) := by
  refine ⟨?_, ?_, ?_, ?_, ?_, ?_⟩
  · exact c6_malformed_ignored.1 _ 1 "hello" (by decide)
  · exact c6_malformed_ignored.2.1 _ 1
  · exact c6_malformed_ignored.2.2.1 2 _ 1 "c" _ noFail (by decide) (by decide)
  · exact c6_malformed_ignored.2.2.1 2 _ 1 "c" _ noFail (by decide) (by decide)
  · exact c6_malformed_ignored.2.2.2.1 2 _ 1 "c" _ noFail (by decide)
  · have := c6_malformed_ignored.2.2.2.2 2 ⟨[], [("c", [1, 2])], [], []⟩ 1 "c"
      [("type", JVal.str "typing"), ("user_id", JVal.str "u1"), ("is_typing", JVal.bool true)]
      [1, 2] (by decide) rfl
    simpa using this

theorem conn_state_cc (s : MState) (ws : Nat) (c : String) (uid : Option String) :
    dget (conn_conv_state s ws c uid).conversation_connections c =
      some ((dget s.conversation_connections c).getD [] ++ [ws]) := by
  by_cases hex : (dget s.conversation_connections c).isSome
  · rcases uid with _ | u <;> simp [conn_conv_state, hex, dget_dset]
  · have hnone : dget s.conversation_connections c = none :=
      Option.not_isSome_iff_eq_none.mp hex
    rcases uid with _ | u <;> simp [conn_conv_state, hex, hnone, dget_dset]

theorem conn_state_cu_some (s : MState) (ws : Nat) (c : String) (u : String) :
    dget (conn_conv_state s ws c (some u)).conversation_users c =
      some (sadd (if (dget s.conversation_connections c).isSome
                  then (dget s.conversation_users c).getD [] else []) u) := by
  by_cases hex : (dget s.conversation_connections c).isSome
  · simp [conn_conv_state, hex, dget_dset]
  · simp [conn_conv_state, hex, dget_dset]

theorem conn_state_wu_some (s : MState) (ws : Nat) (c : String) (u : String) :
    (conn_conv_state s ws c (some u)).websocket_users = dset s.websocket_users ws u := by
  by_cases hex : (dget s.conversation_connections c).isSome <;> simp [conn_conv_state, hex]

theorem conn_state_wu_none (s : MState) (ws : Nat) (c : String) :
    (conn_conv_state s ws c none).websocket_users = s.websocket_users := by
  by_cases hex : (dget s.conversation_connections c).isSome <;> simp [conn_conv_state, hex]

theorem conn_state_cu_none_getD (s : MState) (ws : Nat) (c : String)
    (hlink : (dget s.conversation_users c).isSome →
      (dget s.conversation_connections c).isSome) :
    ((dget (conn_conv_state s ws c none).conversation_users c).getD []) =
      (dget s.conversation_users c).getD [] := by
  by_cases hex : (dget s.conversation_connections c).isSome
  · simp [conn_conv_state, hex]
  · have hnone : dget s.conversation_users c = none := by
      rcases h : dget s.conversation_users c with _ | v
      · rfl
      · exact absurd (hlink (by simp [h])) hex
    simp [conn_conv_state, hex, dget_dset, hnone]

theorem mem_sadd_self (s : List String) (x : String) : x ∈ sadd s x := by
  by_cases h : x ∈ s <;> simp [sadd, h]

theorem sadd_length_pos (s : List String) (x : String) : 0 < (sadd s x).length :=
  List.length_pos.mpr (List.ne_nil_of_mem (mem_sadd_self s x))

/-- C8: join notification sequence.  When a connection subscribes to a
conversation scope with a known user identifier and all transports are live,
the subscriber is first sent a `connected` event whose `active_users` count
includes the joining user, and afterwards a `user_joined` event with that
user's id and the same count is delivered to every other member of the
snapshot of the scope's subscriber list (the joiner excluded). -/
theorem c8_join_notification_sequence (fuel : Nat) (s : MState) (ws : Nat) (c : String)
    (u : String) :
    let users₀ := if (dget s.conversation_connections c).isSome
                  then (dget s.conversation_users c).getD [] else []
    let n := (sadd users₀ u).length
    let conns₀ := (dget s.conversation_connections c).getD []
    connect_to_conversation fuel s ws c (some u) noFail =
      (conn_conv_state s ws c (some u),
       (ws, JMsg.obj (connectedConvMsg c n)) ::
         ((conns₀ ++ [ws]).filter (fun w => decide (some w ≠ some ws))).map
           (fun w => (w, JMsg.obj (userJoinedMsg (some u) n)))) ∧
    u ∈ sadd users₀ u ∧ 0 < n := by
  refine ⟨?_, mem_sadd_self _ u, sadd_length_pos _ u⟩
  have hcc := conn_state_cc s ws c (some u)
  have hcu := conn_state_cu_some s ws c u
  simp only [connect_to_conversation]
  rw [broadcast_conv_no_fail fuel _ c _ (some ws) noFail _ hcc (fun w _ => rfl)]
  simp [hcu, noFail]

/-- C10: the conversation websocket route always subscribes without a user
identifier; such an anonymous connect still accepts and subscribes the
connection, still broadcasts a `user_joined` event — whose `user_id` field is
the JSON `null` — to the other subscribers, and leaves the user index and the
conversation's present-user count unchanged.  The hypothesis links the two
conversation maps (a present-user set only exists for a scope that has a
connection list), which holds in every reachable state. -/
theorem c10_anonymous_connect (fuel : Nat) (s : MState) (ws : Nat) (c : String)
    (hlink : (dget s.conversation_users c).isSome →
      (dget s.conversation_connections c).isSome) :
    let n := ((dget s.conversation_users c).getD []).length
    let conns₀ := (dget s.conversation_connections c).getD []
    connect_to_conversation fuel s ws c none noFail =
      (conn_conv_state s ws c none,
       (ws, JMsg.obj (connectedConvMsg c n)) ::
         ((conns₀ ++ [ws]).filter (fun w => decide (some w ≠ some ws))).map
           (fun w => (w, JMsg.obj (userJoinedMsg none n)))) ∧
    dget (conn_conv_state s ws c none).conversation_connections c =
      some ((dget s.conversation_connections c).getD [] ++ [ws]) ∧
    (conn_conv_state s ws c none).websocket_users = s.websocket_users ∧
    get_active_users_in_conversation (conn_conv_state s ws c none) c =
      get_active_users_in_conversation s c ∧
    dget (userJoinedMsg none n) "user_id" = some JVal.null := by
  refine ⟨?_, conn_state_cc s ws c none, conn_state_wu_none s ws c, ?_, by
    simp [userJoinedMsg, jOptStr, dget]⟩
  · have hcc := conn_state_cc s ws c none
    have hcu := conn_state_cu_none_getD s ws c hlink
    simp only [connect_to_conversation]
    rw [broadcast_conv_no_fail fuel _ c _ (some ws) noFail _ hcc (fun w _ => rfl)]
    simp [hcu, noFail]
  · simp [get_active_users_in_conversation, conn_state_cu_none_getD s ws c hlink]

/-- C10 witness: with connection 2 (user `"u"`) already subscribed to
conversation `"c"`, the anonymous connection 1 is subscribed, the user index
is untouched, the present-user count stays 1, and connection 2 receives a
`user_joined` event whose `user_id` is JSON `null`. -/
theorem c10_anonymous_connect_witness :
    connect_to_conversation 3 ⟨[], [("c", [2])], [(2, "u")], [("c", ["u"])]⟩ 1 "c" none
        noFail =
      (conn_conv_state ⟨[], [("c", [2])], [(2, "u")], [("c", ["u"])]⟩ 1 "c" none,
       (1, JMsg.obj (connectedConvMsg "c" 1)) ::
         (([2] ++ [1]).filter (fun w => decide (some w ≠ some 1))).map
           (fun w => (w, JMsg.obj (userJoinedMsg none 1)))) ∧
    dget (conn_conv_state ⟨[], [("c", [2])], [(2, "u")], [("c", ["u"])]⟩ 1 "c"
        none).conversation_connections "c" = some ([2] ++ [1]) ∧
    (conn_conv_state ⟨[], [("c", [2])], [(2, "u")], [("c", ["u"])]⟩ 1 "c"
        none).websocket_users = [(2, "u")] ∧
    get_active_users_in_conversation
        (conn_conv_state ⟨[], [("c", [2])], [(2, "u")], [("c", ["u"])]⟩ 1 "c" none) "c" =
      get_active_users_in_conversation ⟨[], [("c", [2])], [(2, "u")], [("c", ["u"])]⟩ "c" ∧
    dget (userJoinedMsg none 1) "user_id" = some JVal.null :=
  c10_anonymous_connect 3 ⟨[], [("c", [2])], [(2, "u")], [("c", ["u"])]⟩ 1 "c"
    (fun _ => rfl)

theorem disc_loc_cc_eq (s : MState) (ws : Nat) (loc : String) (conns : List Nat)
    (h : dget s.location_connections loc = some conns) (hm : ws ∈ conns) :
    dget (disconnect_from_location s ws loc).location_connections loc =
      if lremove conns ws = [] then none else some (lremove conns ws) := by
  by_cases hnil : lremove conns ws = [] <;>
    simp [disconnect_from_location, h, hm, hnil, dget_ddel, dget_dset]

theorem disc_state_cc_eq (s : MState) (ws : Nat) (c : String) (uid : Option String)
    (conns : List Nat) (h : dget s.conversation_connections c = some conns)
    (hm : ws ∈ conns) :
    dget (disc_conv_state s ws c uid).conversation_connections c =
      if lremove conns ws = [] then none else some (lremove conns ws) := by
  by_cases hnil : lremove conns ws = [] <;>
    simp [disc_conv_state, h, hm, hnil, dget_ddel, dget_dset]

/-- C5: partial failure isolation.  In a scope whose subscriber list is
duplicate-free, if delivery fails for exactly one subscriber `w₀`, every
other subscriber still receives the event, `w₀` receives nothing, `w₀` is
absent from the scope's subscriber list afterwards, and the scope's next
subscriber count is one less than before.  For the conversation scope the
failing connection is assumed to carry no user-index entry (as in this
application), so its cleanup broadcasts no `user_left`. -/
theorem c5_partial_failure_isolation :
    (∀ s loc msg fails conns w₀,
      dget s.location_connections loc = some conns → conns.Nodup →
      w₀ ∈ conns → fails w₀ = true → (∀ w ∈ conns, w ≠ w₀ → fails w = false) →
      (∀ w ∈ conns, w ≠ w₀ →
        (w, JMsg.obj msg) ∈ (broadcast_to_location s loc msg none fails).2) ∧
      ((w₀, JMsg.obj msg) ∉ (broadcast_to_location s loc msg none fails).2) ∧
      w₀ ∉ ((dget (broadcast_to_location s loc msg none fails).1.location_connections
        loc).getD []) ∧
      get_active_users_in_location (broadcast_to_location s loc msg none fails).1 loc =
        conns.length - 1) ∧
    (∀ fuel s c msg fails conns w₀,
      dget s.conversation_connections c = some conns → conns.Nodup →
      w₀ ∈ conns → fails w₀ = true → (∀ w ∈ conns, w ≠ w₀ → fails w = false) →
      dget s.websocket_users w₀ = none →
      (∀ w ∈ conns, w ≠ w₀ →
        (w, JMsg.obj msg) ∈ (broadcast_to_conversation (fuel + 1) s c msg none fails).2) ∧
      ((w₀, JMsg.obj msg) ∉ (broadcast_to_conversation (fuel + 1) s c msg none fails).2) ∧
      w₀ ∉ ((dget (broadcast_to_conversation (fuel + 1) s c msg none
        fails).1.conversation_connections c).getD []) ∧
      conv_subscriber_count (broadcast_to_conversation (fuel + 1) s c msg none fails).1 c =
        conns.length - 1) := by
  constructor
  · intro s loc msg fails conns w₀ h hnd hw hf hothers
    have hdis : (sendLoop conns none fails msg).2 = [w₀] :=
      sendLoop_dis_single conns none fails msg w₀ hnd hw (by simp) hf hothers
    have hcount : conns.count w₀ ≤ 1 := List.nodup_iff_count_le_one.mp hnd w₀
    have hnm : w₀ ∉ lremove conns w₀ := not_mem_lremove_of_count_le_one hcount
    have hlen := length_lremove_of_mem hw
    refine ⟨?_, ?_, ?_, ?_⟩
    · intro w hwc hne
      simp only [broadcast_to_location, h]
      exact (mem_sendLoop_log conns none fails msg w (JMsg.obj msg)).mpr
        ⟨hwc, by simp, hothers w hwc hne, rfl⟩
    · simp only [broadcast_to_location, h]
      intro hmem
      obtain ⟨-, -, hfw, -⟩ := (mem_sendLoop_log conns none fails msg w₀ (JMsg.obj msg)).mp hmem
      simp [hf] at hfw
    · simp only [broadcast_to_location, h, hdis, List.foldl_cons, List.foldl_nil]
      rw [disc_loc_cc_eq s w₀ loc conns h hw]
      by_cases hnil : lremove conns w₀ = [] <;> simp [hnil, hnm]
    · simp only [broadcast_to_location, h, hdis, List.foldl_cons, List.foldl_nil,
        get_active_users_in_location]
      rw [disc_loc_cc_eq s w₀ loc conns h hw]
      by_cases hnil : lremove conns w₀ = [] <;> simp [hnil]
      · rw [← hlen, hnil]
        rfl
      · exact hlen
  · intro fuel s c msg fails conns w₀ h hnd hw hf hothers hanon
    have hdis : (sendLoop conns none fails msg).2 = [w₀] :=
      sendLoop_dis_single conns none fails msg w₀ hnd hw (by simp) hf hothers
    have hcount : conns.count w₀ ≤ 1 := List.nodup_iff_count_le_one.mp hnd w₀
    have hnm : w₀ ∉ lremove conns w₀ := not_mem_lremove_of_count_le_one hcount
    have hlen := length_lremove_of_mem hw
    have hstep : broadcast_to_conversation (fuel + 1) s c msg none fails =
        (disc_conv_state s w₀ c none, (sendLoop conns none fails msg).1) := by
      simp only [broadcast_to_conversation, h, hdis, cleanupConv,
        disconnect_conv_anon fuel s w₀ c fails hanon, List.append_nil]
    refine ⟨?_, ?_, ?_, ?_⟩
    · intro w hwc hne
      rw [hstep]
      exact (mem_sendLoop_log conns none fails msg w (JMsg.obj msg)).mpr
        ⟨hwc, by simp, hothers w hwc hne, rfl⟩
    · rw [hstep]
      intro hmem
      obtain ⟨-, -, hfw, -⟩ := (mem_sendLoop_log conns none fails msg w₀ (JMsg.obj msg)).mp hmem
      simp [hf] at hfw
    · rw [hstep]
      rw [disc_state_cc_eq s w₀ c none conns h hw]
      by_cases hnil : lremove conns w₀ = [] <;> simp [hnil, hnm]
    · rw [hstep]
      simp only [conv_subscriber_count]
      rw [disc_state_cc_eq s w₀ c none conns h hw]
      by_cases hnil : lremove conns w₀ = [] <;> simp [hnil]
      · rw [← hlen, hnil]
        rfl
      · exact hlen

/-- C5 witness: location scope `"L"` has subscribers 1, 2, 3 and conversation
scope `"c"` has subscribers 4, 5; delivery to 2 (resp. 4) fails.  Subscriber
1 still receives the event, the failed connection receives nothing and is
gone from the scope, and the subscriber count drops by one. -/
theorem c5_partial_failure_isolation_witness :
    ((1, JMsg.obj [("k", JVal.str "v")]) ∈
        (broadcast_to_location ⟨[("L", [1, 2, 3])], [], [], []⟩ "L" [("k", JVal.str "v")]
          none (fun w => w == 2)).2 ∧
      (2, JMsg.obj [("k", JVal.str "v")]) ∉
        (broadcast_to_location ⟨[("L", [1, 2, 3])], [], [], []⟩ "L" [("k", JVal.str "v")]
          none (fun w => w == 2)).2 ∧
      2 ∉ ((dget (broadcast_to_location ⟨[("L", [1, 2, 3])], [], [], []⟩ "L"
          [("k", JVal.str "v")] none (fun w => w == 2)).1.location_connections "L").getD []) ∧
      get_active_users_in_location (broadcast_to_location ⟨[("L", [1, 2, 3])], [], [], []⟩
          "L" [("k", JVal.str "v")] none (fun w => w == 2)).1 "L" = 2) ∧
    ((5, JMsg.obj [("k", JVal.str "v")]) ∈
        (broadcast_to_conversation 1 ⟨[], [("c", [4, 5])], [], []⟩ "c" [("k", JVal.str "v")]
          none (fun w => w == 4)).2 ∧
      4 ∉ ((dget (broadcast_to_conversation 1 ⟨[], [("c", [4, 5])], [], []⟩ "c"
          [("k", JVal.str "v")] none (fun w => w == 4)).1.conversation_connections
          "c").getD []) ∧
      conv_subscriber_count (broadcast_to_conversation 1 ⟨[], [("c", [4, 5])], [], []⟩ "c"
          [("k", JVal.str "v")] none (fun w => w == 4)).1 "c" = 1) := by
  have hl := c5_partial_failure_isolation.1 ⟨[("L", [1, 2, 3])], [], [], []⟩ "L"
    [("k", JVal.str "v")] (fun w => w == 2) [1, 2, 3] 2 rfl (by decide) (by decide) (by decide)
    (by decide)
  have hc := c5_partial_failure_isolation.2 0 ⟨[], [("c", [4, 5])], [], []⟩ "c"
    [("k", JVal.str "v")] (fun w => w == 4) [4, 5] 4 rfl (by decide) (by decide) (by decide)
    (by decide) rfl
  exact ⟨⟨hl.1 1 (by decide) (by decide), hl.2.1, hl.2.2.1, hl.2.2.2⟩,
         ⟨hc.1 5 (by decide) (by decide), hc.2.2.1, hc.2.2.2⟩⟩

theorem disc_loc_wu_self (s : MState) (ws : Nat) (loc : String) :
    dget (disconnect_from_location s ws loc).websocket_users ws = none := by
  by_cases h : (dget s.websocket_users ws).isSome
  · simp [disconnect_from_location, h, dget_ddel]
  · simp only [disconnect_from_location, if_neg h]
    exact Option.not_isSome_iff_eq_none.mp h

theorem disc_loc_self_not_mem (s : MState) (ws : Nat) (loc : String)
    (h : ((dget s.location_connections loc).getD []).count ws ≤ 1) :
    ws ∉ ((dget (disconnect_from_location s ws loc).location_connections loc).getD []) := by
  rcases hc : dget s.location_connections loc with _ | conns
  · simp [disconnect_from_location, hc]
  · rw [hc] at h
    simp only [Option.getD_some] at h
    by_cases hm : ws ∈ conns
    · rw [disc_loc_cc_eq s ws loc conns hc hm]
      by_cases hnil : lremove conns ws = [] <;>
        simp [hnil, not_mem_lremove_of_count_le_one h]
    · have heq : dget (disconnect_from_location s ws loc).location_connections loc
          = some conns := by
        simp [disconnect_from_location, hc, hm]
      rw [heq]
      simpa using hm

theorem disc_loc_id (s : MState) (ws : Nat) (loc : String)
    (h1 : ws ∉ ((dget s.location_connections loc).getD []))
    (h2 : dget s.websocket_users ws = none) :
    disconnect_from_location s ws loc = s := by
  have hs : ¬ (dget s.websocket_users ws).isSome = true := by simp [h2]
  rcases hc : dget s.location_connections loc with _ | conns
  · simp [disconnect_from_location, hc, hs]
  · rw [hc] at h1
    simp only [Option.getD_some] at h1
    simp [disconnect_from_location, hc, h1, hs]

/-- C9: unsubscribe is idempotent and total.  For a connection holding at
most one membership in the scope, repeating the unsubscribe immediately
after a first call changes nothing and emits no second `user_left`; and
calling it on a connection that is not subscribed to the scope (and has no
user-index entry, the registry's own invariant for such connections) is an
exact no-op with no `user_left` broadcast.  No call can fail: all the
operations are total functions of the state. -/
theorem c9_unsubscribe_idempotent :
    (∀ s ws loc, ((dget s.location_connections loc).getD []).count ws ≤ 1 →
      disconnect_from_location (disconnect_from_location s ws loc) ws loc =
        disconnect_from_location s ws loc) ∧
    (∀ fuel₁ fuel₂ s ws c fails₁ fails₂,
      ((dget s.conversation_connections c).getD []).count ws ≤ 1 →
      disconnect_from_conversation fuel₂
          (disconnect_from_conversation fuel₁ s ws c fails₁).1 ws c fails₂ =
        ((disconnect_from_conversation fuel₁ s ws c fails₁).1, [])) ∧
    (∀ fuel s ws c fails, ws ∉ ((dget s.conversation_connections c).getD []) →
      dget s.websocket_users ws = none →
      disconnect_from_conversation fuel s ws c fails = (s, [])) ∧
    (∀ s ws loc, ws ∉ ((dget s.location_connections loc).getD []) →
      dget s.websocket_users ws = none →
      disconnect_from_location s ws loc = s) := by
  refine ⟨?_, ?_, ?_, ?_⟩
  · intro s ws loc h
    exact disc_loc_id (disconnect_from_location s ws loc) ws loc
      (disc_loc_self_not_mem s ws loc h) (disc_loc_wu_self s ws loc)
  · intro fuel₁ fuel₂ s ws c fails₁ fails₂ h
    have h1 : dget ((disconnect_from_conversation fuel₁ s ws c
        fails₁).1).websocket_users ws = none := by
      rcases hu : dget s.websocket_users ws with _ | u
      · rw [disconnect_conv_anon fuel₁ s ws c fails₁ hu]
        exact disc_state_wu_self s ws c none
      · simp only [disconnect_from_conversation, hu]
        exact (conv_shrinks fuel₁).1 _ _ _ _ _ |>.1 ws (disc_state_wu_self s ws c (some u))
    have h2 : ws ∉ ((dget ((disconnect_from_conversation fuel₁ s ws c
        fails₁).1).conversation_connections c).getD []) := by
      rcases hu : dget s.websocket_users ws with _ | u
      · rw [disconnect_conv_anon fuel₁ s ws c fails₁ hu]
        exact disc_state_cc_self s ws c none h
      · simp only [disconnect_from_conversation, hu]
        exact (conv_shrinks fuel₁).1 _ _ _ _ _ |>.2 c ws (disc_state_cc_self s ws c (some u) h)
    rw [disconnect_conv_anon fuel₂ _ ws c fails₂ h1,
      disc_state_id _ ws c h2 h1]
  · intro fuel s ws c fails h1 h2
    rw [disconnect_conv_anon fuel s ws c fails h2, disc_state_id s ws c h1 h2]
  · intro s ws loc h1 h2
    exact disc_loc_id s ws loc h1 h2

/-- C9 witness: concrete second disconnects after a first call, and
disconnects of never-subscribed connections, all no-ops with no
`user_left`. -/
theorem c9_unsubscribe_idempotent_witness :
    disconnect_from_location
        (disconnect_from_location ⟨[("L", [1, 2])], [], [(1, "u")], []⟩ 1 "L") 1 "L" =
      disconnect_from_location ⟨[("L", [1, 2])], [], [(1, "u")], []⟩ 1 "L" ∧
    disconnect_from_conversation 1
        (disconnect_from_conversation 1 ⟨[], [("c", [1, 2])], [(1, "u")], [("c", ["u"])]⟩
          1 "c" noFail).1 1 "c" noFail =
      ((disconnect_from_conversation 1 ⟨[], [("c", [1, 2])], [(1, "u")], [("c", ["u"])]⟩
          1 "c" noFail).1, []) ∧
    disconnect_from_conversation 1 ⟨[], [("c", [2])], [], []⟩ 1 "c" noFail =
      (⟨[], [("c", [2])], [], []⟩, []) ∧
    disconnect_from_location ⟨[("L", [2])], [], [], []⟩ 1 "L" =
      ⟨[("L", [2])], [], [], []⟩ :=
  ⟨c9_unsubscribe_idempotent.1 ⟨[("L", [1, 2])], [], [(1, "u")], []⟩ 1 "L" (by decide),
   c9_unsubscribe_idempotent.2.1 1 1 ⟨[], [("c", [1, 2])], [(1, "u")], [("c", ["u"])]⟩
     1 "c" noFail noFail (by decide),
   c9_unsubscribe_idempotent.2.2.1 1 ⟨[], [("c", [2])], [], []⟩ 1 "c" noFail
     (by decide) rfl,
   c9_unsubscribe_idempotent.2.2.2 ⟨[("L", [2])], [], [], []⟩ 1 "L" (by decide) rfl⟩

theorem disc_loc_conv_cc (s : MState) (ws : Nat) (loc : String) :
    (disconnect_from_location s ws loc).conversation_connections =
      s.conversation_connections := rfl

theorem disc_loc_conv_cu (s : MState) (ws : Nat) (loc : String) :
    (disconnect_from_location s ws loc).conversation_users = s.conversation_users := rfl

theorem foldl_disc_cc (dis : List Nat) (loc : String) : ∀ s : MState,
    (dis.foldl (fun st w => disconnect_from_location st w loc) s).conversation_connections =
      s.conversation_connections := by
  induction dis with
  | nil => intro s; rfl
  | cons d t ih => intro s; rw [List.foldl_cons, ih, disc_loc_conv_cc]

theorem foldl_disc_cu (dis : List Nat) (loc : String) : ∀ s : MState,
    (dis.foldl (fun st w => disconnect_from_location st w loc) s).conversation_users =
      s.conversation_users := by
  induction dis with
  | nil => intro s; rfl
  | cons d t ih => intro s; rw [List.foldl_cons, ih, disc_loc_conv_cu]

theorem disc_loc_other (s : MState) (ws : Nat) (loc loc' : String) (h : loc ≠ loc') :
    dget (disconnect_from_location s ws loc).location_connections loc' =
      dget s.location_connections loc' := by
  rcases hc : dget s.location_connections loc with _ | conns
  · simp [disconnect_from_location, hc]
  · by_cases hm : ws ∈ conns
    · by_cases hnil : lremove conns ws = [] <;>
        simp [disconnect_from_location, hc, hm, hnil, dget_ddel, dget_dset, h]
    · simp [disconnect_from_location, hc, hm]

theorem foldl_disc_other (dis : List Nat) (loc loc' : String) (h : loc ≠ loc') :
    ∀ s : MState,
    dget (dis.foldl (fun st w => disconnect_from_location st w loc) s).location_connections
        loc' = dget s.location_connections loc' := by
  induction dis with
  | nil => intro s; rfl
  | cons d t ih => intro s; rw [List.foldl_cons, ih, disc_loc_other s d loc loc' h]

theorem disc_loc_count_le (s : MState) (ws' : Nat) (loc : String) (w : Nat) :
    ((dget (disconnect_from_location s ws' loc).location_connections loc).getD []).count w ≤
      ((dget s.location_connections loc).getD []).count w := by
  rcases hc : dget s.location_connections loc with _ | conns
  · have heq : dget (disconnect_from_location s ws' loc).location_connections loc = none := by
      simp [disconnect_from_location, hc]
    simp [heq]
  · by_cases hm : ws' ∈ conns
    · rw [disc_loc_cc_eq s ws' loc conns hc hm]
      by_cases hnil : lremove conns ws' = [] <;> simp [hnil, hc]
      exact count_lremove_le conns ws' w
    · have heq : dget (disconnect_from_location s ws' loc).location_connections loc
          = some conns := by
        simp [disconnect_from_location, hc, hm]
      simp [heq, hc]

theorem foldl_disc_count_le (dis : List Nat) (loc : String) (w : Nat) : ∀ s : MState,
    ((dget (dis.foldl (fun st w' => disconnect_from_location st w' loc)
        s).location_connections loc).getD []).count w ≤
      ((dget s.location_connections loc).getD []).count w := by
  induction dis with
  | nil => intro s; exact le_refl _
  | cons d t ih =>
    intro s
    rw [List.foldl_cons]
    exact le_trans (ih _) (disc_loc_count_le s d loc w)

theorem foldl_disc_not_mem (dis : List Nat) (loc : String) (w₀ : Nat) : ∀ s : MState,
    w₀ ∈ dis → ((dget s.location_connections loc).getD []).count w₀ ≤ 1 →
    w₀ ∉ ((dget (dis.foldl (fun st w => disconnect_from_location st w loc)
        s).location_connections loc).getD []) := by
  induction dis with
  | nil => intro s hmem _; simp at hmem
  | cons d t ih =>
    intro s hmem hcount
    rcases List.mem_cons.mp hmem with rfl | hmt
    · have h0 : ((dget (disconnect_from_location s w₀ loc).location_connections
          loc).getD []).count w₀ = 0 :=
        List.count_eq_zero.mpr (disc_loc_self_not_mem s w₀ loc hcount)
      have hle := foldl_disc_count_le t loc w₀ (disconnect_from_location s w₀ loc)
      rw [List.foldl_cons]
      exact List.count_eq_zero.mp (Nat.le_zero.mp (h0 ▸ hle))
    · rw [List.foldl_cons]
      exact ih _ hmt (le_trans (disc_loc_count_le s d loc w₀) hcount)

theorem countsLe_refl (s : MState) : CountsLe s s := fun _ _ => le_refl _

theorem countsLe_trans {s s' s'' : MState} (h1 : CountsLe s s') (h2 : CountsLe s' s'') :
    CountsLe s s'' := fun c w => le_trans (h2 c w) (h1 c w)

theorem countsLe_disc_state (s : MState) (ws : Nat) (c : String) (uid : Option String) :
    CountsLe s (disc_conv_state s ws c uid) := by
  intro c' w
  by_cases hcc : c = c'
  · subst hcc
    rcases hc : dget s.conversation_connections c with _ | conns
    · have heq : dget (disc_conv_state s ws c uid).conversation_connections c = none := by
        simp [disc_conv_state, hc]
      simp [heq, hc]
    · by_cases hm : ws ∈ conns
      · rw [disc_state_cc_eq s ws c uid conns hc hm]
        by_cases hnil : lremove conns ws = [] <;> simp [hnil, hc]
        exact count_lremove_le conns ws w
      · have heq : dget (disc_conv_state s ws c uid).conversation_connections c
            = some conns := by
          simp [disc_conv_state, hc, hm]
        simp [heq, hc]
  · rw [disc_state_cc_other s ws c c' uid hcc]

theorem conv_countsLe (fuel : Nat) :
    (∀ s c msg excl fails, CountsLe s (broadcast_to_conversation fuel s c msg excl fails).1) ∧
    (∀ s ws c fails, CountsLe s (disconnect_from_conversation fuel s ws c fails).1) ∧
    (∀ dis s c fails acc, CountsLe s (cleanupConv fuel s c fails dis acc).1) := by
  induction fuel with
  | zero =>
    have hb : ∀ s c msg excl fails,
        CountsLe s (broadcast_to_conversation 0 s c msg excl fails).1 := by
      intro s c msg excl fails
      rcases h : dget s.conversation_connections c with _ | conns <;>
        simp [broadcast_to_conversation, h, countsLe_refl]
    have hd : ∀ s ws c fails,
        CountsLe s (disconnect_from_conversation 0 s ws c fails).1 := by
      intro s ws c fails
      rcases hu : dget s.websocket_users ws with _ | u <;>
        simp only [disconnect_from_conversation, hu]
      · exact countsLe_disc_state s ws c none
      · exact countsLe_trans (countsLe_disc_state s ws c (some u)) (hb _ _ _ _ _)
    refine ⟨hb, hd, ?_⟩
    intro dis
    induction dis with
    | nil => intro s c fails acc; simp [cleanupConv, countsLe_refl]
    | cons w t ih =>
      intro s c fails acc
      simp only [cleanupConv]
      exact countsLe_trans (hd s w c fails) (ih _ _ _ _)
  | succ f ih =>
    have hb : ∀ s c msg excl fails,
        CountsLe s (broadcast_to_conversation (f + 1) s c msg excl fails).1 := by
      intro s c msg excl fails
      rcases h : dget s.conversation_connections c with _ | conns
      · simp [broadcast_to_conversation, h, countsLe_refl]
      · simp only [broadcast_to_conversation, h]
        exact ih.2.2 _ _ _ _ _
    have hd : ∀ s ws c fails,
        CountsLe s (disconnect_from_conversation (f + 1) s ws c fails).1 := by
      intro s ws c fails
      rcases hu : dget s.websocket_users ws with _ | u <;>
        simp only [disconnect_from_conversation, hu]
      · exact countsLe_disc_state s ws c none
      · exact countsLe_trans (countsLe_disc_state s ws c (some u)) (hb _ _ _ _ _)
    refine ⟨hb, hd, ?_⟩
    intro dis
    induction dis with
    | nil => intro s c fails acc; simp [cleanupConv, countsLe_refl]
    | cons w t ih' =>
      intro s c fails acc
      simp only [cleanupConv]
      exact countsLe_trans (hd s w c fails) (ih' _ _ _ _)

theorem sameOutside_refl (c : String) (s : MState) : SameOutside c s s :=
  ⟨rfl, fun _ _ => rfl⟩

theorem sameOutside_trans {c : String} {s s' s'' : MState} (h1 : SameOutside c s s')
    (h2 : SameOutside c s' s'') : SameOutside c s s'' :=
  ⟨h2.1.trans h1.1, fun c' hc => (h2.2 c' hc).trans (h1.2 c' hc)⟩

theorem sameOutside_disc_state (s : MState) (ws : Nat) (c : String) (uid : Option String) :
    SameOutside c s (disc_conv_state s ws c uid) :=
  ⟨disc_state_loc s ws c uid, fun c' hc => disc_state_cc_other s ws c c' uid hc⟩

theorem conv_sameOutside (fuel : Nat) :
    (∀ s c msg excl fails,
        SameOutside c s (broadcast_to_conversation fuel s c msg excl fails).1) ∧
    (∀ s ws c fails, SameOutside c s (disconnect_from_conversation fuel s ws c fails).1) ∧
    (∀ dis s c fails acc, SameOutside c s (cleanupConv fuel s c fails dis acc).1) := by
  induction fuel with
  | zero =>
    have hb : ∀ s c msg excl fails,
        SameOutside c s (broadcast_to_conversation 0 s c msg excl fails).1 := by
      intro s c msg excl fails
      rcases h : dget s.conversation_connections c with _ | conns <;>
        simp [broadcast_to_conversation, h, sameOutside_refl]
    have hd : ∀ s ws c fails,
        SameOutside c s (disconnect_from_conversation 0 s ws c fails).1 := by
      intro s ws c fails
      rcases hu : dget s.websocket_users ws with _ | u <;>
        simp only [disconnect_from_conversation, hu]
      · exact sameOutside_disc_state s ws c none
      · exact sameOutside_trans (sameOutside_disc_state s ws c (some u)) (hb _ _ _ _ _)
    refine ⟨hb, hd, ?_⟩
    intro dis
    induction dis with
    | nil => intro s c fails acc; simp [cleanupConv, sameOutside_refl]
    | cons w t ih =>
      intro s c fails acc
      simp only [cleanupConv]
      exact sameOutside_trans (hd s w c fails) (ih _ _ _ _)
  | succ f ih =>
    have hb : ∀ s c msg excl fails,
        SameOutside c s (broadcast_to_conversation (f + 1) s c msg excl fails).1 := by
      intro s c msg excl fails
      rcases h : dget s.conversation_connections c with _ | conns
      · simp [broadcast_to_conversation, h, sameOutside_refl]
      · simp only [broadcast_to_conversation, h]
        exact ih.2.2 _ _ _ _ _
    have hd : ∀ s ws c fails,
        SameOutside c s (disconnect_from_conversation (f + 1) s ws c fails).1 := by
      intro s ws c fails
      rcases hu : dget s.websocket_users ws with _ | u <;>
        simp only [disconnect_from_conversation, hu]
      · exact sameOutside_disc_state s ws c none
      · exact sameOutside_trans (sameOutside_disc_state s ws c (some u)) (hb _ _ _ _ _)
    refine ⟨hb, hd, ?_⟩
    intro dis
    induction dis with
    | nil => intro s c fails acc; simp [cleanupConv, sameOutside_refl]
    | cons w t ih' =>
      intro s c fails acc
      simp only [cleanupConv]
      exact sameOutside_trans (hd s w c fails) (ih' _ _ _ _)

theorem disc_loc_wu_mono (s : MState) (ws w : Nat) (loc : String)
    (h : dget s.websocket_users w = none) :
    dget (disconnect_from_location s ws loc).websocket_users w = none := by
  by_cases hs : (dget s.websocket_users ws).isSome
  · simp only [disconnect_from_location, if_pos hs, dget_ddel]
    split <;> simp [h]
  · simp only [disconnect_from_location, if_neg hs]
    exact h

theorem foldl_disc_wu_mono (dis : List Nat) (loc : String) (w : Nat) : ∀ s : MState,
    dget s.websocket_users w = none →
    dget (dis.foldl (fun st w' => disconnect_from_location st w' loc)
        s).websocket_users w = none := by
  induction dis with
  | nil => intro s h; exact h
  | cons d t ih =>
    intro s h
    rw [List.foldl_cons]
    exact ih _ (disc_loc_wu_mono s d w loc h)

theorem foldl_disc_wu_none (dis : List Nat) (loc : String) (w₀ : Nat) : ∀ s : MState,
    w₀ ∈ dis →
    dget (dis.foldl (fun st w => disconnect_from_location st w loc)
        s).websocket_users w₀ = none := by
  induction dis with
  | nil => intro s h; simp at h
  | cons d t ih =>
    intro s hmem
    rw [List.foldl_cons]
    rcases List.mem_cons.mp hmem with rfl | hmt
    · exact foldl_disc_wu_mono t loc w₀ _ (disc_loc_wu_self s w₀ loc)
    · exact ih _ hmt

theorem cleanupConv_clears (dis : List Nat) : ∀ (fuel : Nat) (s : MState) (c : String)
    (fails : Nat → Bool) (acc : List (Nat × JMsg)) (w₀ : Nat),
    w₀ ∈ dis →
    ((dget s.conversation_connections c).getD []).count w₀ ≤ 1 →
    w₀ ∉ ((dget (cleanupConv fuel s c fails dis acc).1.conversation_connections
        c).getD []) ∧
    dget (cleanupConv fuel s c fails dis acc).1.websocket_users w₀ = none := by
  induction dis with
  | nil =>
    intro fuel s c fails acc w₀ hmem _
    simp at hmem
  | cons d t ih =>
    intro fuel s c fails acc w₀ hmem hcount
    simp only [cleanupConv]
    rcases List.mem_cons.mp hmem with rfl | hmt
    · have hfacts : w₀ ∉ ((dget ((disconnect_from_conversation fuel s w₀ c
            fails).1).conversation_connections c).getD []) ∧
          dget ((disconnect_from_conversation fuel s w₀ c fails).1).websocket_users w₀
            = none := by
        rcases hu : dget s.websocket_users w₀ with _ | u
        · rw [disconnect_conv_anon fuel s w₀ c fails hu]
          exact ⟨disc_state_cc_self s w₀ c none hcount, disc_state_wu_self s w₀ c none⟩
        · simp only [disconnect_from_conversation, hu]
          exact ⟨(conv_shrinks fuel).1 _ _ _ _ _ |>.2 c w₀
              (disc_state_cc_self s w₀ c (some u) hcount),
            (conv_shrinks fuel).1 _ _ _ _ _ |>.1 w₀ (disc_state_wu_self s w₀ c (some u))⟩
      have hrest := (conv_shrinks fuel).2.2 t
        ((disconnect_from_conversation fuel s w₀ c fails).1) c fails
        (acc ++ (disconnect_from_conversation fuel s w₀ c fails).2)
      exact ⟨hrest.2 c w₀ hfacts.1, hrest.1 w₀ hfacts.2⟩
    · refine ih fuel _ c fails _ w₀ hmt ?_
      exact le_trans ((conv_countsLe fuel).2.1 s d c fails c w₀) hcount

/-- C3 amended: when delivery of a broadcast event fails for a connection
(in a duplicate-free scope list), that connection is removed from the scope
being broadcast to and its user-index entry is cleared, but — contrary to
the original claim — it is not removed from any other scope: for a location
broadcast every other location key and the whole conversation registry are
untouched, and for a conversation broadcast every other conversation key and
the whole location map are untouched.  The failure is never propagated: the
broadcast returns normally, with the log of its successful sends. -/
theorem c3_failure_removed_from_broadcast_scope :
    (∀ s loc msg excl fails conns w₀,
      dget s.location_connections loc = some conns → conns.Nodup →
      w₀ ∈ conns → fails w₀ = true → some w₀ ≠ excl →
      w₀ ∉ ((dget (broadcast_to_location s loc msg excl
          fails).1.location_connections loc).getD []) ∧
      dget (broadcast_to_location s loc msg excl fails).1.websocket_users w₀ = none ∧
      (broadcast_to_location s loc msg excl fails).1.conversation_connections =
        s.conversation_connections ∧
      (broadcast_to_location s loc msg excl fails).1.conversation_users =
        s.conversation_users ∧
      (∀ loc', loc ≠ loc' →
        dget (broadcast_to_location s loc msg excl fails).1.location_connections loc' =
          dget s.location_connections loc')) ∧
    (∀ fuel s c msg excl fails conns w₀,
      dget s.conversation_connections c = some conns → conns.Nodup →
      w₀ ∈ conns → fails w₀ = true → some w₀ ≠ excl →
      w₀ ∉ ((dget (broadcast_to_conversation (fuel + 1) s c msg excl
          fails).1.conversation_connections c).getD []) ∧
      dget (broadcast_to_conversation (fuel + 1) s c msg excl fails).1.websocket_users w₀
        = none ∧
      (broadcast_to_conversation (fuel + 1) s c msg excl fails).1.location_connections =
        s.location_connections ∧
      (∀ c', c ≠ c' →
        dget (broadcast_to_conversation (fuel + 1) s c msg excl
          fails).1.conversation_connections c' = dget s.conversation_connections c')) := by
  constructor
  · intro s loc msg excl fails conns w₀ h hnd hw hf hex
    have hdis : w₀ ∈ (sendLoop conns excl fails msg).2 :=
      (mem_sendLoop_dis conns excl fails msg w₀).mpr ⟨hw, hex, hf⟩
    have hcount : ((dget s.location_connections loc).getD []).count w₀ ≤ 1 := by
      rw [h]
      simpa using List.nodup_iff_count_le_one.mp hnd w₀
    simp only [broadcast_to_location, h]
    exact ⟨foldl_disc_not_mem _ loc w₀ s hdis hcount,
           foldl_disc_wu_none _ loc w₀ s hdis,
           foldl_disc_cc _ loc s,
           foldl_disc_cu _ loc s,
           fun loc' hne => foldl_disc_other _ loc loc' hne s⟩
  · intro fuel s c msg excl fails conns w₀ h hnd hw hf hex
    have hdis : w₀ ∈ (sendLoop conns excl fails msg).2 :=
      (mem_sendLoop_dis conns excl fails msg w₀).mpr ⟨hw, hex, hf⟩
    have hcount : ((dget s.conversation_connections c).getD []).count w₀ ≤ 1 := by
      rw [h]
      simpa using List.nodup_iff_count_le_one.mp hnd w₀
    simp only [broadcast_to_conversation, h]
    have hclear := cleanupConv_clears ((sendLoop conns excl fails msg).2) fuel s c fails
      ((sendLoop conns excl fails msg).1) w₀ hdis hcount
    have houtside := (conv_sameOutside fuel).2.2
      ((sendLoop conns excl fails msg).2) s c fails ((sendLoop conns excl fails msg).1)
    exact ⟨hclear.1, hclear.2, houtside.1, fun c' hc => houtside.2 c' hc⟩

/-- C3 amended witness: both halves of the amended statement at concrete
states.  After a location broadcast to `"L1"` whose send to connection 1
fails, connection 1 is gone from `"L1"`, its user-index entry is cleared,
and scope `"L2"` and the conversation maps are untouched; after a
conversation broadcast to `"C1"` whose send to connection 1 (user `"u"`)
fails, connection 1 is gone from `"C1"`, its user-index entry is cleared,
and scope `"C2"` and the location map are untouched. -/
theorem c3_failure_removed_from_broadcast_scope_witness :
    (1 ∉ ((dget (broadcast_to_location ⟨[("L1", [1, 2]), ("L2", [1])], [("C1", [1])],
        [(1, "u")], [("C1", ["u"])]⟩ "L1" [("k", JVal.str "v")] none
        (fun w => w == 1)).1.location_connections "L1").getD []) ∧
      dget (broadcast_to_location ⟨[("L1", [1, 2]), ("L2", [1])], [("C1", [1])],
        [(1, "u")], [("C1", ["u"])]⟩ "L1" [("k", JVal.str "v")] none
        (fun w => w == 1)).1.websocket_users 1 = none ∧
      (broadcast_to_location ⟨[("L1", [1, 2]), ("L2", [1])], [("C1", [1])], [(1, "u")],
        [("C1", ["u"])]⟩ "L1" [("k", JVal.str "v")] none
        (fun w => w == 1)).1.conversation_connections = [("C1", [1])] ∧
      dget (broadcast_to_location ⟨[("L1", [1, 2]), ("L2", [1])], [("C1", [1])],
        [(1, "u")], [("C1", ["u"])]⟩ "L1" [("k", JVal.str "v")] none
        (fun w => w == 1)).1.location_connections "L2" =
        dget ([("L1", [1, 2]), ("L2", [1])] : List (String × List Nat)) "L2") ∧
    (1 ∉ ((dget (broadcast_to_conversation 1 ⟨[("L", [1])], [("C1", [1, 2]), ("C2", [1])],
        [(1, "u")], [("C1", ["u"])]⟩ "C1" [("k", JVal.str "v")] none
        (fun w => w == 1)).1.conversation_connections "C1").getD []) ∧
      dget (broadcast_to_conversation 1 ⟨[("L", [1])], [("C1", [1, 2]), ("C2", [1])],
        [(1, "u")], [("C1", ["u"])]⟩ "C1" [("k", JVal.str "v")] none
        (fun w => w == 1)).1.websocket_users 1 = none ∧
      (broadcast_to_conversation 1 ⟨[("L", [1])], [("C1", [1, 2]), ("C2", [1])],
        [(1, "u")], [("C1", ["u"])]⟩ "C1" [("k", JVal.str "v")] none
        (fun w => w == 1)).1.location_connections = [("L", [1])] ∧
      dget (broadcast_to_conversation 1 ⟨[("L", [1])], [("C1", [1, 2]), ("C2", [1])],
        [(1, "u")], [("C1", ["u"])]⟩ "C1" [("k", JVal.str "v")] none
        (fun w => w == 1)).1.conversation_connections "C2" =
        dget ([("C1", [1, 2]), ("C2", [1])] : List (String × List Nat)) "C2") := by
  have hl := c3_failure_removed_from_broadcast_scope.1
    ⟨[("L1", [1, 2]), ("L2", [1])], [("C1", [1])], [(1, "u")], [("C1", ["u"])]⟩ "L1"
    [("k", JVal.str "v")] none (fun w => w == 1) [1, 2] 1 rfl (by decide) (by decide)
    (by decide) (by decide)
  have hc := c3_failure_removed_from_broadcast_scope.2 0
    ⟨[("L", [1])], [("C1", [1, 2]), ("C2", [1])], [(1, "u")], [("C1", ["u"])]⟩ "C1"
    [("k", JVal.str "v")] none (fun w => w == 1) [1, 2] 1 rfl (by decide) (by decide)
    (by decide) (by decide)
  exact ⟨⟨hl.1, hl.2.1, hl.2.2.1, hl.2.2.2.2 "L2" (by decide)⟩,
         ⟨hc.1, hc.2.1, hc.2.2.1, hc.2.2.2 "C2" (by decide)⟩⟩

/-- C1: the claim fails on the code.  Two connections (1 and 2) subscribe to
conversation `"c"` with the same user identifier `"u1"`; after connection 1
disconnects, connection 2 is still subscribed with user `"u1"`, yet
`get_active_users_in_conversation` returns 0, not 1: the disconnect path
discards the user id from the present-user set without checking whether
another connection of the same user remains. -/
theorem c1_presence_count_drops_to_zero :
    get_active_users_in_conversation c1_after_disconnect "c" = 0 ∧
      dget c1_after_disconnect.conversation_connections "c" = some [2] ∧
      dget c1_after_disconnect.websocket_users 2 = some "u1" := by
  simp [c1_after_disconnect, connect_to_conversation, conn_conv_state,
    disconnect_from_conversation, broadcast_to_conversation, cleanupConv, disc_conv_state,
    get_active_users_in_conversation, dget, dset, ddel,
    sadd, sdiscard, lremove, sendLoop, initState, noFail]

/-- C2: the claim fails on the code.  The same connection 1 subscribing twice
to location `"L"` is appended twice to the scope's connection list, and the
next broadcast to that scope delivers the event to connection 1 twice; the
same duplication happens for conversation scopes. -/
theorem c2_duplicate_subscribe_duplicates_delivery :
    dget c2_loc_twice.location_connections "L" = some [1, 1] ∧
      (broadcast_to_location c2_loc_twice "L" [("k", JVal.str "v")] none noFail).2 =
        [(1, JMsg.obj [("k", JVal.str "v")]), (1, JMsg.obj [("k", JVal.str "v")])] ∧
      dget c2_conv_twice.conversation_connections "c" = some [1, 1] := by
  simp [c2_loc_twice, c2_conv_twice, connect_to_location, connect_to_conversation,
    conn_conv_state, broadcast_to_location, broadcast_to_conversation, cleanupConv,
    disc_conv_state, dget, dset, ddel, sadd, sdiscard, lremove, sendLoop, initState, noFail]

/-- C3 counterexample: connection 1 belongs to location scopes `"L1"`, `"L2"`
and conversation scope `"C1"`; its send fails during a broadcast to `"L1"`.
The code removes it from `"L1"` only — it is still a member of `"L2"` and of
`"C1"` afterwards, refuting the claim that a failing connection is removed
from every scope it belongs to. -/
theorem c3_failing_conn_kept_in_other_scopes :
    let s : MState := ⟨[("L1", [1, 2]), ("L2", [1])], [("C1", [1])], [(1, "u")], [("C1", ["u"])]⟩
    let s' := (broadcast_to_location s "L1" [("k", JVal.str "v")] none (fun w => w == 1)).1
    dget s'.location_connections "L1" = some [2] ∧
      dget s'.location_connections "L2" = some [1] ∧
      dget s'.conversation_connections "C1" = some [1] := by
  simp [broadcast_to_location, disconnect_from_location, dget, dset, ddel,
    lremove, sendLoop]
